import Mathlib

/-!
Verification of the agentic-rag document versioning and OCR core.

Shallow embedding of:
- `src/agent/api.py` — `_parse_version`, `_bump_version`, `upload_new_version`,
  `rollback_version`, `compare_versions`;
- `src/ingestion/ocr.py` — `extract_text`, `_extract_from_image`,
  `_extract_from_pdf`, `_run_tesseract`, `_resolve_language_attempts`,
  `_split_languages`, `_dedupe_preserve_order`.

Python strings are modelled as Lean `String`/`List Char`; the ASCII fragment of
the relevant str methods (strip, lower, isdigit, split, splitlines) is embedded
faithfully.  Database rows are explicit structures; the asyncpg transaction is
modelled by a wrapper that discards state changes on error, which is the
documented contract of the transactional store collaborator.
-/

namespace AgenticRag

/-- Decidable equality for `Except` results, so that concrete runs can be
checked by `decide`. -/
def exceptDecEq {ε α : Type} [DecidableEq ε] [DecidableEq α] :
    (a b : Except ε α) → Decidable (a = b)
  | .ok a, .ok b =>
    if h : a = b then .isTrue (by rw [h])
    else .isFalse (fun he => h (by cases he; rfl))
  | .ok _, .error _ => .isFalse (fun he => by cases he)
  | .error _, .ok _ => .isFalse (fun he => by cases he)
  | .error e, .error f =>
    if h : e = f then .isTrue (by rw [h])
    else .isFalse (fun he => h (by cases he; rfl))

instance {ε α : Type} [DecidableEq ε] [DecidableEq α] : DecidableEq (Except ε α) :=
  exceptDecEq

/-! ## Python string primitives (ASCII fragment) -/

/-- The whitespace characters recognised by Python `str.strip()` on ASCII text. -/
def pyIsSpaceChar (c : Char) : Bool :=
  c.toNat = 32 || c.toNat = 9 || c.toNat = 10 || c.toNat = 13 ||
  c.toNat = 11 || c.toNat = 12

/-- Python `str.strip()` over a character list. -/
def pyStrip (l : List Char) : List Char :=
  ((l.dropWhile pyIsSpaceChar).reverse.dropWhile pyIsSpaceChar).reverse

/-- Python `str.strip()` over `String`. -/
def pyStripS (s : String) : String :=
  ⟨pyStrip s.data⟩

/-- Python `str.lower()` on a character (ASCII fragment). -/
def pyToLower (c : Char) : Char :=
  if 65 ≤ c.toNat ∧ c.toNat ≤ 90 then Char.ofNat (c.toNat + 32) else c

/-- Python `str.isdigit()` on a single character (ASCII fragment; non-ASCII
digit code points, which would make `int()` raise inside the caller of
`isdigit`, are outside this model). -/
def pyIsDigitChar (c : Char) : Bool :=
  48 ≤ c.toNat && c.toNat ≤ 57

/-- Python `str.isdigit()`: non-empty and all digits. -/
def pyIsDigitStr (l : List Char) : Bool :=
  !l.isEmpty && l.all pyIsDigitChar

/-- Decimal value of a digit string, as Python `int()` computes it on a string
that satisfies `isdigit`. -/
def digitsVal (l : List Char) : Nat :=
  l.foldl (fun a c => 10 * a + (c.toNat - 48)) 0

/-- Python `str.split(sep)` for a single-character separator: splitting the
empty string yields `[""]`, and separators delimit possibly empty fields. -/
def pySplit (sep : Char) : List Char → List (List Char)
  | [] => [[]]
  | c :: rest =>
    if c = sep then [] :: pySplit sep rest
    else
      match pySplit sep rest with
      | [] => [[c]]
      | g :: gs => (c :: g) :: gs

/-- Decimal digit character. -/
def digitChar (d : Nat) : Char :=
  match d with
  | 0 => '0' | 1 => '1' | 2 => '2' | 3 => '3' | 4 => '4'
  | 5 => '5' | 6 => '6' | 7 => '7' | 8 => '8' | _ => '9'

/-- Fuel-driven digit expansion; with fuel above `n` it produces the decimal
digits of `n`, most significant first. -/
def natDigitsAux : Nat → Nat → List Char
  | 0, _ => []
  | fuel + 1, n =>
    if n < 10 then [digitChar n]
    else natDigitsAux fuel (n / 10) ++ [digitChar (n % 10)]

/-- Decimal digits of a natural number, most significant first — the model of
Python `str(n)` for a non-negative `int`. -/
def natDigits (n : Nat) : List Char :=
  natDigitsAux (n + 1) n

/-- Python `str(n)` for a natural number. -/
def pyStr (n : Nat) : String :=
  ⟨natDigits n⟩

/-- Python truthiness of an `Optional[str]`: `None` and `""` are falsy. -/
def optTruthy : Option String → Bool
  | none => false
  | some s => s ≠ ""

/-! ## Version parsing and bumping (`src/agent/api.py` lines 1643-1660) -/

/-- Reading `(major, minor)` off the split fields, shared verbatim by the
code (lines 1648-1650) and by the rule as the claim words it: major defaults
to 1 when the first field is missing or not a digit string, minor defaults
to 0 when the second field is missing or not a digit string. -/
def versionFromParts (parts : List (List Char)) : Nat × Nat :=
  let major := match parts with
    | p0 :: _ => if pyIsDigitStr p0 then digitsVal p0 else 1
    | [] => 1
  let minor := match parts with
    | _ :: p1 :: _ => if pyIsDigitStr p1 then digitsVal p1 else 0
    | _ => 0
  (major, minor)

/-- `_parse_version` from `src/agent/api.py`: on a falsy input returns
`(1, 0)`; otherwise strips surrounding whitespace, lowercases, removes every
`v` character via `str.replace`, splits on `"."`, and reads major (default 1)
and minor (default 0) from the first two fields when they are digit strings. -/
def _parse_version (v : Option String) : Nat × Nat :=
  match v with
  | none => (1, 0)
  | some s =>
    if s = "" then (1, 0)
    else versionFromParts
      (pySplit '.' (((pyStrip s.data).map pyToLower).filter (fun c => c ≠ 'v')))

/-- `_bump_version` from `src/agent/api.py`: a `major` bump yields
`"{major+1}.0"`, anything else yields the default minor bump
`"{major}.{minor+1}"`. -/
def _bump_version (current : Option String) (bump : String) : String :=
  let p := _parse_version current
  if bump = "major" then pyStr (p.1 + 1) ++ ".0"
  else pyStr p.1 ++ "." ++ pyStr (p.2 + 1)

/-- The version-selection expression at `src/agent/api.py` line 1777:
`version.strip() if isinstance(version, str) and version.strip() else
_bump_version(current_version, bump)`. -/
def selectNewVersion (version : Option String) (current : Option String) (bump : String) : String :=
  match version with
  | some v => if pyStripS v ≠ "" then pyStripS v else _bump_version current bump
  | none => _bump_version current bump

/-- The parsing rule exactly as claim C5 words it: strip one LEADING `v`/`V`,
split on `"."`, default a missing or non-numeric minor to 0 and a missing or
non-numeric major to 1, and map `None` and the empty string to `(1, 0)`.
Stated from the claim text, to be compared against `_parse_version`. -/
def parse_version_spec (v : Option String) : Nat × Nat :=
  match v with
  | none => (1, 0)
  | some s =>
    if s = "" then (1, 0)
    else
      let cs := match s.data with
        | c :: rest => if c = 'v' ∨ c = 'V' then rest else c :: rest
        | [] => []
      versionFromParts (pySplit '.' cs)

/-- The normalisation `_parse_version` actually performs before splitting:
strip surrounding whitespace, lowercase, remove every `v`. -/
def pyNormalizeVersion (s : String) : String :=
  ⟨((pyStrip s.data).map pyToLower).filter (fun c => c ≠ 'v')⟩

/-! ## Data model (`documents`, `document_versions`, `chunks` tables) -/

/-- The JSON metadata blob on a document or snapshot, modelled as a structure
holding the fields this core reads or writes plus an opaque extension map. -/
structure Meta where
  version : Option String
  file_path : Option String
  last_upload_mime : Option String
  last_upload_filename : Option String
  file_size : Option Nat
  extra : List (String × String)
deriving Repr, DecidableEq

/-- The empty JSON object `{}`. -/
def emptyMeta : Meta :=
  { version := none, file_path := none, last_upload_mime := none,
    last_upload_filename := none, file_size := none, extra := [] }

/-- The columns of the `documents` row this core touches.  `content` and
`metadata` are nullable in the schema. -/
structure DocRow where
  id : String
  title : String
  source : Option String
  content : Option String
  metadata : Option Meta
deriving Repr, DecidableEq

/-- A `document_versions` row.  Rows written by this core always carry string
content and a metadata object, which is how the columns are modelled. -/
structure VersionRow where
  rowId : String
  version : String
  change_summary : String
  content : String
  metadata : Meta
  file_path : Option String
  file_mime : Option String
  file_size : Option Nat
  created_by : Option String
deriving Repr, DecidableEq

/-- A `chunks` row.  The embedding column stores the textual vector literal
the code builds, or NULL. -/
structure ChunkRow where
  content : String
  embedding : Option String
  chunk_index : Nat
  metadata : Meta
  token_count : Option Nat
deriving Repr, DecidableEq

/-- The slice of database state for one document: its `documents` row, its
`document_versions` rows (in insertion order) and its `chunks` rows.  Version
row ids are modelled as insertion counters. -/
structure DbState where
  doc : DocRow
  versions : List VersionRow
  chunks : List ChunkRow
deriving Repr, DecidableEq

/-- A chunk as produced by the external chunker and annotated by the external
embedder.  Vector components are carried as their textual representations,
since the code only ever joins them with `","`. -/
structure DocumentChunk where
  content : String
  index : Nat
  metadata : Meta
  token_count : Option Nat
  embedding : Option (List String)
deriving Repr, DecidableEq

/-- The external chunking and embedding capabilities. -/
structure PipelineEnv where
  chunkDocument : String → String → String → Meta → List DocumentChunk
  embedChunks : List DocumentChunk → List DocumentChunk

/-- Errors surfaced by the endpoints: HTTP errors raised deliberately, and
failures of an individual pipeline or database step. -/
inductive ApiError where
  | httpError (status : Nat) (detail : String)
  | stepFailure (step : String)
deriving Repr, DecidableEq

/-- The `INSERT INTO chunks ...` row built from one embedded chunk at
`src/agent/api.py` lines 1805-1820: the vector literal is only built when the
embedding attribute is truthy (a non-empty list). -/
def chunkRowOf (ch : DocumentChunk) : ChunkRow :=
  { content := ch.content,
    embedding := match ch.embedding with
      | some l => if l ≠ [] then some ("[" ++ String.intercalate "," l ++ "]") else none
      | none => none,
    chunk_index := ch.index,
    metadata := ch.metadata,
    token_count := ch.token_count }

/-! ## UTF-8 / latin-1 decoding (`src/agent/api.py` lines 1713-1721) -/

/-- Strict UTF-8 decoding of a byte list, as Python `bytes.decode("utf-8")`:
rejects truncated sequences, stray continuation bytes, overlong encodings,
surrogate code points and values above U+10FFFF. -/
def utf8Decode : List Nat → Option (List Char)
  | [] => some []
  | b :: rest =>
    if b < 0x80 then
      (utf8Decode rest).map (Char.ofNat b :: ·)
    else if 0xC2 ≤ b ∧ b ≤ 0xDF then
      match rest with
      | c1 :: rest2 =>
        if 0x80 ≤ c1 ∧ c1 ≤ 0xBF then
          (utf8Decode rest2).map (Char.ofNat ((b - 0xC0) * 64 + (c1 - 0x80)) :: ·)
        else none
      | _ => none
    else if 0xE0 ≤ b ∧ b ≤ 0xEF then
      match rest with
      | c1 :: c2 :: rest2 =>
        let lo1 := if b = 0xE0 then 0xA0 else 0x80
        let hi1 := if b = 0xED then 0x9F else 0xBF
        if (lo1 ≤ c1 ∧ c1 ≤ hi1) ∧ (0x80 ≤ c2 ∧ c2 ≤ 0xBF) then
          (utf8Decode rest2).map
            (Char.ofNat ((b - 0xE0) * 4096 + (c1 - 0x80) * 64 + (c2 - 0x80)) :: ·)
        else none
      | _ => none
    else if 0xF0 ≤ b ∧ b ≤ 0xF4 then
      match rest with
      | c1 :: c2 :: c3 :: rest2 =>
        let lo1 := if b = 0xF0 then 0x90 else 0x80
        let hi1 := if b = 0xF4 then 0x8F else 0xBF
        if (lo1 ≤ c1 ∧ c1 ≤ hi1) ∧ (0x80 ≤ c2 ∧ c2 ≤ 0xBF) ∧ (0x80 ≤ c3 ∧ c3 ≤ 0xBF) then
          (utf8Decode rest2).map
            (Char.ofNat ((b - 0xF0) * 262144 + (c1 - 0x80) * 4096 + (c2 - 0x80) * 64 + (c3 - 0x80)) :: ·)
        else none
      | _ => none
    else none

/-- Python `raw.decode("latin-1", errors="ignore")`: every byte below 256 maps
to the code point of the same value; the ignore handler would drop anything
else, but bytes are always below 256, so nothing is ever dropped. -/
def latin1IgnoreDecode (raw : List Nat) : List Char :=
  raw.filterMap (fun b => if b < 256 then some (Char.ofNat b) else none)

/-- The decode step of `upload_new_version` (lines 1716-1719): try UTF-8 and
fall back to latin-1 with undecodable bytes ignored. -/
def pyDecodeUpload (raw : List Nat) : String :=
  match utf8Decode raw with
  | some cs => ⟨cs⟩
  | none => ⟨latin1IgnoreDecode raw⟩

/-! ## `upload_new_version` (`src/agent/api.py` lines 1690-1857) -/

/-- Which steps of the upload pipeline fail by raising.  The baseline
existence-check step is listed separately because the code swallows its
failure (`except` at line 1775) instead of aborting. -/
structure UploadFailures where
  baselineStepFails : Bool
  chunkFails : Bool
  embedFails : Bool
  deleteChunksFails : Bool
  insertChunkFails : Bool
  insertSnapshotFails : Bool
  updateDocFails : Bool
deriving Repr, DecidableEq

/-- No injected failures. -/
def noUploadFailures : UploadFailures :=
  { baselineStepFails := false, chunkFails := false, embedFails := false,
    deleteChunksFails := false, insertChunkFails := false,
    insertSnapshotFails := false, updateDocFails := false }

/-- The request data of `upload_new_version`: path/form parameters, the
uploaded file, and whether `file.read()` itself raises. -/
structure UploadParams where
  document_id : String
  change_summary : String
  bump : String
  version : Option String
  filename : Option String
  content_type : Option String
  raw : List Nat
  created_by : Option String
  readFails : Bool

/-- The `prev_ver` expression of line 1749: the current version when it is a
string with non-blank strip, else `"1.0"`. -/
def uploadPrevVer (current_version : Option String) : String :=
  match current_version with
  | some s => if pyStripS s ≠ "" then s else "1.0"
  | none => "1.0"

/-- The synthetic baseline snapshot row inserted at lines 1755-1772, built
from the pre-update document content and metadata. -/
def uploadBaseRow (p : UploadParams) (db : DbState) : VersionRow :=
  { rowId := "v" ++ pyStr db.versions.length,
    version := uploadPrevVer (db.doc.metadata.getD emptyMeta).version,
    change_summary := "Initial version snapshot",
    content := db.doc.content.getD "",
    metadata := db.doc.metadata.getD emptyMeta,
    file_path := (db.doc.metadata.getD emptyMeta).file_path,
    file_mime := (db.doc.metadata.getD emptyMeta).last_upload_mime,
    file_size := (db.doc.metadata.getD emptyMeta).file_size,
    created_by := p.created_by }

/-- The baseline-snapshot block of `upload_new_version` (lines 1747-1774)
when nothing raises: the existence check on `prev_ver`, the conditional
insert of the synthetic snapshot, and the conditional defaulting of
`current_version`.  Returns the possibly extended state and the possibly
defaulted current version. -/
def uploadBaselineStep (p : UploadParams) (db : DbState) : DbState × Option String :=
  if db.versions.any
      (fun r => r.version = uploadPrevVer (db.doc.metadata.getD emptyMeta).version) then
    (db, (db.doc.metadata.getD emptyMeta).version)
  else
    ({ db with versions := db.versions ++ [uploadBaseRow p db] },
     if optTruthy (db.doc.metadata.getD emptyMeta).version then
       (db.doc.metadata.getD emptyMeta).version
     else some (uploadPrevVer (db.doc.metadata.getD emptyMeta).version))

/-- The baseline block with its failure flag: a raising step is swallowed by
the `except` at line 1775, leaving state and current version untouched. -/
def uploadStep (fs : UploadFailures) (p : UploadParams) (db : DbState) :
    DbState × Option String :=
  if fs.baselineStepFails then (db, (db.doc.metadata.getD emptyMeta).version)
  else uploadBaselineStep p db

/-- The merged metadata of lines 1780-1790: prior metadata with the new
version and, when a filename is present, the upload provenance fields. -/
def uploadNewMeta (p : UploadParams) (db : DbState) (new_version : String) : Meta :=
  if optTruthy p.filename then
    { db.doc.metadata.getD emptyMeta with
        version := some new_version,
        last_upload_filename := p.filename,
        last_upload_mime := p.content_type,
        file_path := p.filename,
        file_size := some p.raw.length }
  else { db.doc.metadata.getD emptyMeta with version := some new_version }

/-- The `source` expression of line 1794: the document source if truthy, else
the filename if truthy, else `"uploaded"`. -/
def uploadSource (p : UploadParams) (db : DbState) : String :=
  match db.doc.source with
  | some s =>
    if s ≠ "" then s else if optTruthy p.filename then p.filename.getD "" else "uploaded"
  | none => if optTruthy p.filename then p.filename.getD "" else "uploaded"

/-- The new `document_versions` row inserted at lines 1824-1841. -/
def uploadSnapRow (p : UploadParams) (new_content new_version : String) (nm : Meta)
    (rowCount : Nat) : VersionRow :=
  { rowId := "v" ++ pyStr rowCount,
    version := new_version,
    change_summary := p.change_summary,
    content := new_content,
    metadata := nm,
    file_path := p.filename,
    file_mime := p.content_type,
    file_size := some p.raw.length,
    created_by := p.created_by }

/-- The body of the `conn.transaction()` block of `upload_new_version`
(lines 1734-1855), as a function from the pre-state to either an error or the
post-state plus the new version string.  Each failable step consults its flag
in `fs`; the baseline block swallows its own failure. -/
def uploadTxn (env : PipelineEnv) (fs : UploadFailures) (p : UploadParams)
    (new_content : String) (db : DbState) : Except ApiError (DbState × String) :=
  if p.document_id ≠ db.doc.id then .error (.httpError 404 "Document not found")
  else
    let step := uploadStep fs p db
    let db1 := step.1
    let new_version := selectNewVersion p.version step.2 p.bump
    let new_metadata := uploadNewMeta p db new_version
    if fs.chunkFails then .error (.stepFailure "chunk_document")
    else
      let chunks := env.chunkDocument new_content db.doc.title (uploadSource p db) new_metadata
      if fs.embedFails then .error (.stepFailure "embed_chunks")
      else
        let embedded := env.embedChunks chunks
        if fs.deleteChunksFails then .error (.stepFailure "delete_chunks")
        else
          let db2 := { db1 with chunks := [] }
          if fs.insertChunkFails then .error (.stepFailure "insert_chunk")
          else
            let db3 := { db2 with chunks := embedded.map chunkRowOf }
            if fs.insertSnapshotFails then .error (.stepFailure "insert_version")
            else
              let db4 := { db3 with versions := db3.versions ++
                [uploadSnapRow p new_content new_version new_metadata db3.versions.length] }
              if fs.updateDocFails then .error (.stepFailure "update_document")
              else
                .ok ({ db4 with
                        doc := { db4.doc with
                                  content := some new_content,
                                  metadata := some new_metadata } },
                     new_version)

/-- The version string a successful upload commits. -/
def uploadVersionOf (fs : UploadFailures) (p : UploadParams) (db : DbState) : String :=
  selectNewVersion p.version (uploadStep fs p db).2 p.bump

/-- The database state a successful upload commits: the baseline-extended
state with chunks replaced, the new snapshot appended, and the document row
updated. -/
def uploadFinalState (env : PipelineEnv) (fs : UploadFailures) (p : UploadParams)
    (new_content : String) (db : DbState) : DbState :=
  let step := uploadStep fs p db
  let new_version := selectNewVersion p.version step.2 p.bump
  let nm := uploadNewMeta p db new_version
  let embedded := env.embedChunks
    (env.chunkDocument new_content db.doc.title (uploadSource p db) nm)
  { doc := { step.1.doc with content := some new_content, metadata := some nm },
    versions := step.1.versions ++
      [uploadSnapRow p new_content new_version nm step.1.versions.length],
    chunks := embedded.map chunkRowOf }

/-- The `upload_new_version` endpoint: validation and file reading happen
before the transaction; the transaction either commits its post-state or
leaves the database exactly as it was. -/
def upload_new_version (env : PipelineEnv) (fs : UploadFailures) (p : UploadParams)
    (db : DbState) : Except ApiError String × DbState :=
  if pyStripS p.change_summary = "" then
    (.error (.httpError 400 "change_summary is required"), db)
  else if p.readFails then
    (.error (.httpError 400 "Failed to read file"), db)
  else
    match uploadTxn env fs p (pyDecodeUpload p.raw) db with
    | .ok (db2, v) => (.ok v, db2)
    | .error e => (.error e, db)

/-! ## `rollback_version` (`src/agent/api.py` lines 1987-2072) -/

/-- Which steps of the rollback pipeline fail by raising. -/
structure RollbackFailures where
  chunkFails : Bool
  embedFails : Bool
  deleteChunksFails : Bool
  insertChunkFails : Bool
  updateDocFails : Bool
deriving Repr, DecidableEq

/-- No injected failures. -/
def noRollbackFailures : RollbackFailures :=
  { chunkFails := false, embedFails := false, deleteChunksFails := false,
    insertChunkFails := false, updateDocFails := false }

/-- The `source` expression of line 2030. -/
def rollbackSource (db : DbState) : String :=
  match db.doc.source with
  | some s => if s ≠ "" then s else "rollback"
  | none => "rollback"

/-- The restored content of line 2013: `ver["content"] or ""`. -/
def rollbackOldContent (ver : VersionRow) : String :=
  if ver.content ≠ "" then ver.content else ""

/-- The database state a successful rollback commits: chunks recomputed from
the snapshot content and metadata, the document row restored, and the
version-history rows untouched. -/
def rollbackFinalState (env : PipelineEnv) (db : DbState) (ver : VersionRow) : DbState :=
  let embedded := env.embedChunks
    (env.chunkDocument (rollbackOldContent ver) db.doc.title (rollbackSource db) ver.metadata)
  { doc := { db.doc with
              content := some (rollbackOldContent ver),
              metadata := some ver.metadata },
    versions := db.versions,
    chunks := embedded.map chunkRowOf }

/-- The body of the rollback transaction once the target snapshot row has
been fetched (lines 2011-2070). -/
def rollbackBody (env : PipelineEnv) (fs : RollbackFailures) (document_id : String)
    (db : DbState) (ver : VersionRow) : Except ApiError (DbState × String) :=
  if document_id ≠ db.doc.id then .error (.httpError 404 "Document not found")
  else
    if fs.chunkFails then .error (.stepFailure "chunk_document")
    else
      let chunks := env.chunkDocument (rollbackOldContent ver) db.doc.title
        (rollbackSource db) ver.metadata
      if fs.embedFails then .error (.stepFailure "embed_chunks")
      else
        let embedded := env.embedChunks chunks
        if fs.deleteChunksFails then .error (.stepFailure "delete_chunks")
        else
          let db2 := { db with chunks := [] }
          if fs.insertChunkFails then .error (.stepFailure "insert_chunk")
          else
            let db3 := { db2 with chunks := embedded.map chunkRowOf }
            if fs.updateDocFails then .error (.stepFailure "update_document")
            else
              .ok ({ db3 with
                      doc := { db3.doc with
                                content := some (rollbackOldContent ver),
                                metadata := some ver.metadata } },
                   ver.version)

/-- The body of the `conn.transaction()` block of `rollback_version`. -/
def rollbackTxn (env : PipelineEnv) (fs : RollbackFailures)
    (document_id version_id : String) (db : DbState) :
    Except ApiError (DbState × String) :=
  match db.versions.find? (fun r => r.rowId = version_id) with
  | none => .error (.httpError 404 "Version not found")
  | some ver => rollbackBody env fs document_id db ver

/-- The `rollback_version` endpoint with transactional commit-or-discard. -/
def rollback_version (env : PipelineEnv) (fs : RollbackFailures)
    (document_id version_id : String) (db : DbState) :
    Except ApiError String × DbState :=
  match rollbackTxn env fs document_id version_id db with
  | .ok (db2, v) => (.ok v, db2)
  | .error e => (.error e, db)

/-! ## `compare_versions` (`src/agent/api.py` lines 1942-1984) -/

/-- Python line-break characters recognised by `str.splitlines`. -/
def pyIsLineBreak (c : Char) : Bool :=
  c.toNat = 10 || c.toNat = 13 || c.toNat = 11 || c.toNat = 12 ||
  c.toNat = 28 || c.toNat = 29 || c.toNat = 30 || c.toNat = 133 ||
  c.toNat = 8232 || c.toNat = 8233

/-- Python `str.splitlines(keepends=True)`: each line keeps its terminator;
`"\r\n"` counts as a single terminator. -/
def pySplitlinesKeepends : List Char → List (List Char)
  | [] => []
  | c :: rest =>
    if c.toNat = 13 then
      match rest with
      | d :: rest2 =>
        if d.toNat = 10 then
          match pySplitlinesKeepends rest2 with
          | ls => [c, d] :: ls
        else [c] :: pySplitlinesKeepends (d :: rest2)
      | [] => [[c]]
    else if pyIsLineBreak c then [c] :: pySplitlinesKeepends rest
    else
      match pySplitlinesKeepends rest with
      | [] => [[c]]
      | l :: ls => (c :: l) :: ls

/-- `splitlines(keepends=True)` over `String`, producing the line list the
code hands to `difflib.unified_diff`. -/
def pySplitlinesKeependsS (s : String) : List String :=
  (pySplitlinesKeepends s.data).map (fun l => ⟨l⟩)

/-- The JSON payload of the compare endpoint. -/
structure CompareRequest where
  left_version_id : Option String
  right_version_id : Option String
  left : Option String
  right : Option String
deriving Repr, DecidableEq

/-- Python `a or b` on two `Optional[str]` values. -/
def pyOrStr (a b : Option String) : Option String :=
  if optTruthy a then a else b

/-- The nested `get_content` helper of `compare_versions`: a falsy selector
resolves to `""`; the literal `"current"` resolves to the document content
(or `""` when null/empty); anything else is looked up as a version row id,
with an absent row or null/empty content resolving to `""`. -/
def getContent (db : DbState) (selector : Option String) : String :=
  match selector with
  | none => ""
  | some s =>
    if s = "" then ""
    else if s = "current" then
      match db.doc.content with
      | some c => if c ≠ "" then c else ""
      | none => ""
    else
      match db.versions.find? (fun r => r.rowId = s) with
      | some row => if row.content ≠ "" then row.content else ""
      | none => ""

/-- The `compare_versions` endpoint.  The unified-diff computation itself is
the external `difflib.unified_diff`, passed in as `udiff` (taking the two
line lists and the fromfile/tofile labels); the endpoint joins its output
lines into one string. -/
def compare_versions (db : DbState)
    (udiff : List String → List String → String → String → List String)
    (payload : CompareRequest) : Except ApiError String :=
  if ¬ optTruthy (pyOrStr payload.right payload.right_version_id) then
    .error (.httpError 400 "right version is required")
  else
    .ok (String.join (udiff
      (pySplitlinesKeependsS (getContent db
        (pyOrStr payload.left (pyOrStr payload.left_version_id (some "current")))))
      (pySplitlinesKeependsS (getContent db (pyOrStr payload.right payload.right_version_id)))
      ((pyOrStr payload.left (pyOrStr payload.left_version_id (some "current"))).getD "")
      ((pyOrStr payload.right payload.right_version_id).getD "")))

/-- Python `sep.join(items)`. -/
def pyJoin (sep : String) : List String → String
  | [] => ""
  | [x] => x
  | x :: y :: rest => x ++ sep ++ pyJoin sep (y :: rest)

/-! ## OCR engine (`src/ingestion/ocr.py`) -/

/-- Outcome of one `pytesseract.image_to_string` invocation on an image with
one language option: text, a per-language `TesseractError`, or the fatal
`TesseractNotFoundError`. -/
inductive RecogOutcome where
  | ok (text : String)
  | tessError (msg : String)
  | notFound
deriving Repr, DecidableEq

/-- Errors of `extract_text`: `FileNotFoundError` or `OCRError`. -/
inductive ExtractError where
  | fileNotFound (msg : String)
  | ocrError (msg : String)
deriving Repr, DecidableEq

/-- The provenance metadata dictionary of an `OCRResult`.  The `languages`
key holds a single code on the image path and a list on the pdf-ocr path, and
is absent on the pdf-text path, hence the two optional fields. -/
structure OCRMeta where
  engine : String
  source : String
  page_count : Option Nat
  languagesOne : Option String
  languagesMany : Option (List String)
  used_ocr : Bool
deriving Repr, DecidableEq

/-- `OCRResult`: extracted text plus provenance metadata. -/
structure OCRResult where
  text : String
  metadata : OCRMeta
deriving Repr, DecidableEq

/-- Which external effects ran during an extraction: whether the PDF was
rasterised (`pdf2image.convert_from_path`) and whether the recognition engine
(`pytesseract.image_to_string`) was invoked at least once. -/
structure OcrTrace where
  rasterized : Bool
  recognized : Bool
deriving Repr, DecidableEq

/-- The empty trace: no rasterisation, no recognition. -/
def noOcrTrace : OcrTrace := { rasterized := false, recognized := false }

/-- The environment of one extraction request: the file and the behaviour of
the external libraries on it.  `recognize i lang` is the recogniser outcome
on page image `i` (the sole image is page 0 for image files); `pdfPages` is
the per-page direct text (`none` when `page.extract_text()` raises);
`pdfReaderFails` makes the whole direct-text phase raise;
`rasterPageCount` is how many page images rasterisation yields. -/
structure OcrEnv where
  fileExists : Bool
  pillowAvailable : Bool
  pytesseractAvailable : Bool
  pdf2imageAvailable : Bool
  pypdfAvailable : Bool
  recognize : Nat → String → RecogOutcome
  pdfReaderFails : Bool
  pdfPages : List (Option String)
  rasterPageCount : Nat

/-- Default of the `OCR_LANGUAGES` environment variable. -/
def OCR_LANGUAGES : String := "vie+eng"

/-- Default of the `OCR_FALLBACK_LANGUAGES` environment variable. -/
def OCR_FALLBACK_LANGUAGES : String := "eng"

/-- `_split_languages`: replace `";"` by `","`, split on `","`, strip each
token and keep the non-empty ones. -/
def _split_languages (spec : Option String) : List String :=
  match spec with
  | none => []
  | some s =>
    if s = "" then []
    else
      ((pySplit ',' (s.data.map (fun c => if c = ';' then ',' else c))).map
        (fun t => pyStrip t)).filterMap
        (fun t => if t ≠ [] then some (⟨t⟩ : String) else none)

/-- `_resolve_language_attempts`: the requested spec (or the configured
default), followed by the configured fallbacks not already present, with
`"eng"` as a last resort when everything is empty. -/
def _resolve_language_attempts (languages : Option String) : List String :=
  let attempts := _split_languages
    (if optTruthy languages then languages else some OCR_LANGUAGES)
  let fallbacks := _split_languages (some OCR_FALLBACK_LANGUAGES)
  let attempts := fallbacks.foldl
    (fun acc fb => if fb ≠ "" ∧ fb ∉ acc then acc ++ [fb] else acc) attempts
  if attempts = [] then ["eng"] else attempts

/-- `_dedupe_preserve_order`: keep first occurrences of non-empty items. -/
def _dedupe_preserve_order (items : List String) : List String :=
  (items.foldl (fun acc item =>
    if item ≠ "" ∧ item ∉ acc then acc ++ [item] else acc) [])

/-- The language attempt loop of `_run_tesseract` (lines 186-203): `errors`
accumulates per-language failure messages.  The first language the
recogniser answers wins with its stripped text; `TesseractNotFoundError`
aborts the loop at once; an exhausted candidate list raises the aggregated
`OCRError`. -/
def runTesseractLoop (recog : String → RecogOutcome) :
    List String → List String → Except ExtractError (String × String)
  | [], errors =>
    .error (.ocrError ("Tesseract failed for all language candidates: " ++
      String.intercalate "; " errors))
  | lang :: rest, errors =>
    match recog lang with
    | .ok text => .ok (pyStripS text, lang)
    | .notFound =>
      .error (.ocrError "Tesseract binary not found. Ensure Tesseract OCR is installed and available on PATH.")
    | .tessError msg =>
      runTesseractLoop recog rest
        (errors ++ [if lang ≠ "" then "lang=\x27" ++ lang ++ "\x27 -> " ++ msg else msg])

/-- `_run_tesseract` on page image `i`: fails at once when pytesseract is
missing, otherwise runs the attempt loop.  The colour-mode normalisation of
the image does not affect which outcome the abstract recogniser yields. -/
def _run_tesseract (env : OcrEnv) (i : Nat) (candidates : List String) :
    Except ExtractError (String × String) :=
  if ¬ env.pytesseractAvailable then
    .error (.ocrError "pytesseract is not installed. Please add pytesseract to requirements.")
  else runTesseractLoop (env.recognize i) candidates []

/-- `_extract_from_image` (lines 100-111). -/
def _extract_from_image (env : OcrEnv) (languages : Option String) :
    Except ExtractError OCRResult × OcrTrace :=
  match _run_tesseract env 0 (_resolve_language_attempts languages) with
  | .error e => (.error e, { rasterized := false, recognized := env.pytesseractAvailable })
  | .ok (text, lang) =>
    (.ok { text := text,
           metadata := { engine := "tesseract", source := "image", page_count := none,
                         languagesOne := some lang, languagesMany := none,
                         used_ocr := true } },
     { rasterized := false, recognized := env.pytesseractAvailable })

/-- The per-page OCR loop of `_extract_from_pdf` (lines 155-160): the first
page failure propagates (the `finally` block only releases images). -/
def pdfOcrLoop (env : OcrEnv) (candidates : List String) :
    List Nat → Except ExtractError (List String × List String)
  | [] => .ok ([], [])
  | i :: rest =>
    match _run_tesseract env i candidates with
    | .error e => .error e
    | .ok (t, lang) =>
      match pdfOcrLoop env candidates rest with
      | .error e => .error e
      | .ok (ts, ls) => .ok (t :: ts, lang :: ls)

/-- The direct text of the direct-extraction phase (lines 120-129): each
page contributes its extracted text (an empty string when the per-page
extraction raises), non-blank pages are stripped and joined with a blank
line, and the whole is stripped. -/
def pdfDirectText (env : OcrEnv) : String :=
  pyStripS (pyJoin "\n\n"
    (((env.pdfPages.map (fun p => p.getD "")).map pyStripS).filter (fun c => c ≠ "")))

/-- The outcome of the direct-extraction phase (lines 117-139): `none` when
pypdf is missing, the reader raises, or no page yields usable text. -/
def pdfDirectResult (env : OcrEnv) : Option OCRResult :=
  if env.pypdfAvailable ∧ ¬ env.pdfReaderFails then
    if pdfDirectText env ≠ "" then
      some { text := pdfDirectText env,
             metadata := { engine := "pypdf", source := "pdf_text",
                           page_count := some env.pdfPages.length,
                           languagesOne := none, languagesMany := none,
                           used_ocr := false } }
    else none
  else none

/-- The OCR fallback phase of `_extract_from_pdf` (lines 141-176). -/
def pdfOcrPhase (env : OcrEnv) (languages : Option String) :
    Except ExtractError OCRResult × OcrTrace :=
  if ¬ env.pdf2imageAvailable then
    (.error (.ocrError "pdf2image is required for OCR on PDF files. Install pdf2image or provide a PDF with selectable text."), noOcrTrace)
  else if env.rasterPageCount = 0 then
    (.error (.ocrError "No pages found in PDF for OCR processing."),
     { rasterized := true, recognized := false })
  else
    match pdfOcrLoop env (_resolve_language_attempts languages)
        (List.range env.rasterPageCount) with
    | .error e => (.error e, { rasterized := true, recognized := env.pytesseractAvailable })
    | .ok (texts, langsUsed) =>
      (.ok { text := pyStripS (pyJoin "\n\n" ((texts.map pyStripS).filter (fun c => c ≠ ""))),
             metadata := { engine := "tesseract", source := "pdf_ocr",
                           page_count := some env.rasterPageCount,
                           languagesOne := none,
                           languagesMany := some (_dedupe_preserve_order langsUsed),
                           used_ocr := true } },
       { rasterized := true, recognized := env.pytesseractAvailable })

/-- `_extract_from_pdf` (lines 114-176): direct text first (per-page failures
contribute an empty string, a whole-reader failure skips the phase), then OCR
over rasterised pages. -/
def _extract_from_pdf (env : OcrEnv) (languages : Option String) :
    Except ExtractError OCRResult × OcrTrace :=
  match pdfDirectResult env with
  | some r => (.ok r, noOcrTrace)
  | none => pdfOcrPhase env languages

/-- Supported image extensions. -/
def SUPPORTED_IMAGE_EXTENSIONS : List String :=
  [".png", ".jpg", ".jpeg", ".tif", ".tiff", ".bmp", ".gif"]

/-- Supported PDF extensions. -/
def SUPPORTED_PDF_EXTENSIONS : List String := [".pdf"]

/-- `pathlib.Path(path).suffix.lower()`: the lowercased extension of the
final path component, empty when the name has no dot after its first
character. -/
def pathSuffixLower (path : String) : String :=
  let name := ((pySplit '/' path.data).getLastD []).map pyToLower
  match (pySplit '.' name).reverse with
  | ext :: _ :: rest =>
    if rest = [] ∧ (name.headD ' ') = '.' then ""
    else ⟨'.' :: ext⟩
  | _ => ""

/-- `_ensure_dependencies` (lines 235-246). -/
def _ensure_dependencies (env : OcrEnv) (suffix : String) : Option ExtractError :=
  if ¬ env.pillowAvailable then
    some (.ocrError "Pillow is required for OCR but is not installed.")
  else if (suffix ∈ SUPPORTED_IMAGE_EXTENSIONS ∨ suffix ∈ SUPPORTED_PDF_EXTENSIONS) ∧
      ¬ env.pytesseractAvailable then
    some (.ocrError "pytesseract is required for OCR but is not installed.")
  else if suffix ∈ SUPPORTED_PDF_EXTENSIONS ∧ ¬ env.pdf2imageAvailable ∧ ¬ env.pypdfAvailable then
    some (.ocrError "PDF OCR requested but neither pdf2image nor pypdf is available. Install pdf2image (for raster OCR) and/or pypdf (for direct text extraction).")
  else none

/-- `extract_text` (lines 71-97): existence check, dependency check, then
dispatch on the lowercased suffix. -/
def extract_text (env : OcrEnv) (path : String) (languages : Option String) :
    Except ExtractError OCRResult × OcrTrace :=
  if ¬ env.fileExists then
    (.error (.fileNotFound ("File not found: " ++ path)), noOcrTrace)
  else
    match _ensure_dependencies env (pathSuffixLower path) with
    | some e => (.error e, noOcrTrace)
    | none =>
      if pathSuffixLower path ∈ SUPPORTED_IMAGE_EXTENSIONS then
        _extract_from_image env languages
      else if pathSuffixLower path ∈ SUPPORTED_PDF_EXTENSIONS then
        _extract_from_pdf env languages
      else
        (.error (.ocrError ("Unsupported file type for OCR: " ++ pathSuffixLower path)),
         noOcrTrace)

/-- The successful image-path result record (lines 105-111). -/
def imageOkResult (t lang : String) : OCRResult :=
  { text := t,
    metadata := { engine := "tesseract", source := "image", page_count := none,
                  languagesOne := some lang, languagesMany := none, used_ocr := true } }

/-- The successful pdf-ocr result record (lines 168-176). -/
def pdfOcrOkResult (env : OcrEnv) (texts langsUsed : List String) : OCRResult :=
  { text := pyStripS (pyJoin "\n\n" ((texts.map pyStripS).filter (fun c => c ≠ ""))),
    metadata := { engine := "tesseract", source := "pdf_ocr",
                  page_count := some env.rasterPageCount, languagesOne := none,
                  languagesMany := some (_dedupe_preserve_order langsUsed),
                  used_ocr := true } }

/-! ## Concrete fixtures -/

/-- A one-chunk chunker paired with a constant embedder. -/
def testEnv : PipelineEnv :=
  { chunkDocument := fun c _ _ m =>
      [{ content := c, index := 0, metadata := m, token_count := some 1, embedding := none }],
    embedChunks := fun l => l.map (fun ch => { ch with embedding := some ["0"] }) }

/-- A document with version `"1.0"`, no history rows and one stored chunk. -/
def testDb : DbState :=
  { doc := { id := "d1", title := "T", source := some "src", content := some "old",
             metadata := some { emptyMeta with version := some "1.0" } },
    versions := [],
    chunks := [{ content := "old", embedding := none, chunk_index := 0,
                 metadata := emptyMeta, token_count := none }] }

/-- An upload request for `testDb` ("hi" as bytes). -/
def testParams : UploadParams :=
  { document_id := "d1", change_summary := "fix typo", bump := "minor", version := none,
    filename := some "f.txt", content_type := some "text/plain", raw := [104, 105],
    created_by := none, readFails := false }

/-- A second upload request for the same document. -/
def testParams2 : UploadParams :=
  { document_id := "d1", change_summary := "more", bump := "minor", version := none,
    filename := some "g.txt", content_type := some "text/plain", raw := [104],
    created_by := none, readFails := false }

/-- An upload request carrying bytes that are not valid UTF-8. -/
def testParamsBadUtf8 : UploadParams :=
  { document_id := "d1", change_summary := "binary", bump := "minor", version := none,
    filename := some "b.bin", content_type := some "application/octet-stream", raw := [255, 104],
    created_by := none, readFails := false }

/-- Failure injection: the chunking step raises. -/
def failChunkUpload : UploadFailures :=
  { noUploadFailures with chunkFails := true }

/-- Failure injection for rollback: the chunking step raises. -/
def failChunkRollback : RollbackFailures :=
  { noRollbackFailures with chunkFails := true }

/-- A document with one version-history row `v0`. -/
def testDbWithVersion : DbState :=
  { doc := { id := "d1", title := "T", source := some "src", content := some "new",
             metadata := some { emptyMeta with version := some "1.1" } },
    versions := [{ rowId := "v0", version := "1.0", change_summary := "Initial version snapshot",
                   content := "old", metadata := { emptyMeta with version := some "1.0" },
                   file_path := none, file_mime := none, file_size := none, created_by := none }],
    chunks := [{ content := "new", embedding := none, chunk_index := 0,
                 metadata := emptyMeta, token_count := none }] }

/-- A compare payload whose right selector names no existing snapshot. -/
def testComparePayload : CompareRequest :=
  { left_version_id := none, right_version_id := none, left := none, right := some "missing" }

/-- An image-file OCR environment whose recogniser answers the empty string. -/
def imgEnvBlank : OcrEnv :=
  { fileExists := true, pillowAvailable := true, pytesseractAvailable := true,
    pdf2imageAvailable := true, pypdfAvailable := true,
    recognize := fun _ _ => .ok "", pdfReaderFails := false, pdfPages := [],
    rasterPageCount := 0 }

/-- A PDF environment with one selectable-text page and a recogniser that
would answer if consulted. -/
def pdfEnvText : OcrEnv :=
  { fileExists := true, pillowAvailable := true, pytesseractAvailable := true,
    pdf2imageAvailable := true, pypdfAvailable := true,
    recognize := fun _ _ => .ok "ocr text", pdfReaderFails := false,
    pdfPages := [none, some "hello world"], rasterPageCount := 2 }

/-- A recogniser that fails on `"vie"` and succeeds on `"eng"`. -/
def recogSecond : String → RecogOutcome :=
  fun lang => if lang = "eng" then .ok "  text  " else .tessError "no pack"

/-- A recogniser whose installation is missing for every language. -/
def recogMissing : String → RecogOutcome := fun _ => .notFound

/-- A recogniser that fails per-language for every language. -/
def recogAllFail : String → RecogOutcome := fun lang => .tessError ("bad " ++ lang)

/-! ## Lemmas: dropWhile and strip -/

theorem dropWhile_eq_self_of_false {p : Char → Bool} :
    ∀ {l : List Char}, (∀ c ∈ l, p c = false) → l.dropWhile p = l
  | [], _ => rfl
  | c :: t, h => by
    have hc : p c = false := h c (by simp)
    simp [List.dropWhile_cons, hc]

theorem dropWhile_dropWhile {p : Char → Bool} :
    ∀ (l : List Char), (l.dropWhile p).dropWhile p = l.dropWhile p
  | [] => rfl
  | c :: t => by
    by_cases hc : p c = true
    · simp only [List.dropWhile_cons, hc, if_true]
      exact dropWhile_dropWhile t
    · simp [List.dropWhile_cons, hc]

theorem head?_dropWhile_false {p : Char → Bool} :
    ∀ {l : List Char} {c : Char}, (l.dropWhile p).head? = some c → p c = false
  | [], _, h => by simp at h
  | a :: t, c, h => by
    by_cases ha : p a = true
    · simp only [List.dropWhile_cons, ha, if_true] at h
      exact head?_dropWhile_false h
    · simp only [List.dropWhile_cons, ha, Bool.false_eq_true, if_false,
        List.head?_cons, Option.some.injEq] at h
      rw [← h]
      simpa using ha

theorem getLast?_dropWhile {p : Char → Bool} :
    ∀ {l : List Char}, l.dropWhile p ≠ [] → (l.dropWhile p).getLast? = l.getLast?
  | [], h => (h rfl).elim
  | a :: t, h => by
    by_cases ha : p a = true
    · simp only [List.dropWhile_cons, ha, if_true] at h ⊢
      have ht : t ≠ [] := by
        intro he
        exact h (by simp [he])
      rw [getLast?_dropWhile h]
      cases t with
      | nil => exact (ht rfl).elim
      | cons b u => simp [List.getLast?_cons_cons]
    · simp [List.dropWhile_cons, ha]

theorem pyStrip_eq_self {l : List Char} (h : ∀ c ∈ l, pyIsSpaceChar c = false) :
    pyStrip l = l := by
  unfold pyStrip
  rw [dropWhile_eq_self_of_false h,
      dropWhile_eq_self_of_false (fun c hc => h c (List.mem_reverse.mp hc)),
      List.reverse_reverse]

theorem dropWhile_pyStrip (l : List Char) :
    (pyStrip l).dropWhile pyIsSpaceChar = pyStrip l := by
  set p := pyIsSpaceChar
  set A := l.dropWhile p with hA
  set C := A.reverse.dropWhile p with hC
  have hstrip : pyStrip l = C.reverse := rfl
  rw [hstrip]
  cases hcr : C.reverse with
  | nil => rfl
  | cons c t =>
    have hcl : C.getLast? = some c := by
      rw [← List.head?_reverse, hcr, List.head?_cons]
    have hCne : C ≠ [] := by
      intro he
      rw [he] at hcr
      simp at hcr
    have h1 : C.getLast? = A.reverse.getLast? := getLast?_dropWhile hCne
    have h2 : A.reverse.getLast? = A.head? := List.getLast?_reverse A
    have h3 : A.head? = some c := by rw [← h2, ← h1, hcl]
    have hc : p c = false := head?_dropWhile_false h3
    rw [List.dropWhile_cons, hc]
    simp

theorem pyStrip_idem (l : List Char) : pyStrip (pyStrip l) = pyStrip l := by
  have h1 : pyStrip (pyStrip l) =
      (((pyStrip l).dropWhile pyIsSpaceChar).reverse.dropWhile pyIsSpaceChar).reverse := rfl
  rw [h1, dropWhile_pyStrip]
  have h2 : (pyStrip l).reverse =
      (l.dropWhile pyIsSpaceChar).reverse.dropWhile pyIsSpaceChar := by
    unfold pyStrip
    rw [List.reverse_reverse]
  rw [h2, dropWhile_dropWhile, ← h2, List.reverse_reverse]

theorem pyStripS_idem (s : String) : pyStripS (pyStripS s) = pyStripS s := by
  unfold pyStripS
  exact congrArg String.mk (pyStrip_idem s.data)

theorem pyStrip_eq_nil_iff {l : List Char} :
    pyStrip l = [] ↔ ∀ c ∈ l, pyIsSpaceChar c = true := by
  unfold pyStrip
  constructor
  · intro h c hc
    have h1 : (l.dropWhile pyIsSpaceChar).reverse.dropWhile pyIsSpaceChar = [] := by
      have := congrArg List.reverse h
      simpa using this
    have h2 : ∀ c ∈ (l.dropWhile pyIsSpaceChar).reverse, pyIsSpaceChar c = true :=
      List.dropWhile_eq_nil_iff.mp h1
    have h3 : ∀ c ∈ l.dropWhile pyIsSpaceChar, pyIsSpaceChar c = true :=
      fun c hc => h2 c (List.mem_reverse.mpr hc)
    rcases (List.mem_append.mp
      (by rw [List.takeWhile_append_dropWhile (p := pyIsSpaceChar) (l := l)]; exact hc)) with h4 | h4
    · exact List.mem_takeWhile_imp h4
    · exact h3 c h4
  · intro h
    have h1 : l.dropWhile pyIsSpaceChar = [] := List.dropWhile_eq_nil_iff.mpr h
    rw [h1]
    rfl

/-! ## Lemmas: decimal digits -/

theorem digitChar_isDigit (d : Nat) : pyIsDigitChar (digitChar d) = true := by
  unfold digitChar
  split <;> decide

theorem digitChar_toNat (d : Nat) (h : d < 10) : (digitChar d).toNat = 48 + d := by
  interval_cases d <;> decide

theorem natDigitsAux_all_digit :
    ∀ (fuel n : Nat), ∀ c ∈ natDigitsAux fuel n, pyIsDigitChar c = true := by
  intro fuel
  induction fuel with
  | zero => intro n c hc; simp [natDigitsAux] at hc
  | succ fuel ih =>
    intro n c hc
    unfold natDigitsAux at hc
    by_cases hn : n < 10
    · simp only [hn, if_true, List.mem_singleton] at hc
      rw [hc]; exact digitChar_isDigit n
    · simp only [hn, if_false, List.mem_append, List.mem_singleton] at hc
      rcases hc with hc | hc
      · exact ih _ c hc
      · rw [hc]; exact digitChar_isDigit _

theorem natDigitsAux_ne_nil (fuel n : Nat) (h : 0 < fuel) : natDigitsAux fuel n ≠ [] := by
  cases fuel with
  | zero => omega
  | succ fuel =>
    unfold natDigitsAux
    by_cases hn : n < 10 <;> simp [hn]

theorem digitsVal_append (xs : List Char) (c : Char) :
    digitsVal (xs ++ [c]) = 10 * digitsVal xs + (c.toNat - 48) := by
  unfold digitsVal
  rw [List.foldl_append]
  rfl

theorem digitsVal_natDigitsAux :
    ∀ (fuel n : Nat), n < fuel → digitsVal (natDigitsAux fuel n) = n := by
  intro fuel
  induction fuel with
  | zero => intro n h; omega
  | succ fuel ih =>
    intro n h
    unfold natDigitsAux
    by_cases hn : n < 10
    · simp only [hn, if_true]
      unfold digitsVal
      simp only [List.foldl_cons, List.foldl_nil]
      rw [digitChar_toNat n hn]
      omega
    · simp only [hn, if_false]
      rw [digitsVal_append]
      have hdiv : n / 10 < fuel := by omega
      rw [ih _ hdiv, digitChar_toNat (n % 10) (by omega)]
      omega

theorem natDigits_all_digit (n : Nat) : ∀ c ∈ natDigits n, pyIsDigitChar c = true :=
  natDigitsAux_all_digit (n + 1) n

theorem natDigits_ne_nil (n : Nat) : natDigits n ≠ [] :=
  natDigitsAux_ne_nil (n + 1) n (by omega)

theorem digitsVal_natDigits (n : Nat) : digitsVal (natDigits n) = n :=
  digitsVal_natDigitsAux (n + 1) n (by omega)

theorem pyIsDigitStr_natDigits (n : Nat) : pyIsDigitStr (natDigits n) = true := by
  unfold pyIsDigitStr
  rw [Bool.and_eq_true]
  constructor
  · simp [List.isEmpty_iff, natDigits_ne_nil n]
  · rw [List.all_eq_true]
    exact natDigits_all_digit n

/-! ## Lemmas: digit characters under the version normalisation pipeline -/

theorem digit_not_space {c : Char} (h : pyIsDigitChar c = true) : pyIsSpaceChar c = false := by
  unfold pyIsDigitChar at h
  unfold pyIsSpaceChar
  simp only [Bool.and_eq_true, decide_eq_true_eq] at h
  simp only [Bool.or_eq_false_iff, decide_eq_false_iff_not]
  omega

theorem digit_toLower {c : Char} (h : pyIsDigitChar c = true) : pyToLower c = c := by
  unfold pyIsDigitChar at h
  unfold pyToLower
  simp only [Bool.and_eq_true, decide_eq_true_eq] at h
  rw [if_neg]
  omega

theorem digit_ne_v {c : Char} (h : pyIsDigitChar c = true) : c ≠ 'v' := by
  unfold pyIsDigitChar at h
  simp only [Bool.and_eq_true, decide_eq_true_eq] at h
  intro he
  rw [he] at h
  revert h
  decide

theorem digit_ne_dot {c : Char} (h : pyIsDigitChar c = true) : c ≠ '.' := by
  unfold pyIsDigitChar at h
  simp only [Bool.and_eq_true, decide_eq_true_eq] at h
  intro he
  rw [he] at h
  revert h
  decide

theorem pySplit_of_not_mem {sep : Char} :
    ∀ {xs : List Char}, sep ∉ xs → pySplit sep xs = [xs]
  | [], _ => rfl
  | c :: t, h => by
    have hc : c ≠ sep := fun he => h (by rw [he]; simp)
    have ht : sep ∉ t := fun hm => h (List.mem_cons_of_mem c hm)
    conv_lhs => rw [pySplit]
    rw [if_neg hc, pySplit_of_not_mem ht]

theorem pySplit_append {sep : Char} :
    ∀ {xs : List Char} (ys : List Char), sep ∉ xs →
      pySplit sep (xs ++ sep :: ys) = xs :: pySplit sep ys
  | [], ys, _ => by
    show pySplit sep (sep :: ys) = [] :: pySplit sep ys
    conv_lhs => rw [pySplit]
    rw [if_pos rfl]
  | c :: t, ys, h => by
    have hc : c ≠ sep := fun he => h (by rw [he]; simp)
    have ht : sep ∉ t := fun hm => h (List.mem_cons_of_mem c hm)
    show pySplit sep (c :: (t ++ sep :: ys)) = (c :: t) :: pySplit sep ys
    conv_lhs => rw [pySplit]
    rw [if_neg hc, pySplit_append ys ht]

theorem dot_not_mem_natDigits (n : Nat) : '.' ∉ natDigits n := by
  intro h
  exact digit_ne_dot (natDigits_all_digit n '.' h) rfl

/-- The version strings built by `_bump_version` parse back to the pair they
were formatted from. -/
theorem parse_version_mn (m n : Nat) :
    _parse_version (some (pyStr m ++ "." ++ pyStr n)) = (m, n) := by
  have hdata : (pyStr m ++ "." ++ pyStr n).data = natDigits m ++ '.' :: natDigits n := by
    simp [pyStr, String.data_append]
  have hne : (pyStr m ++ "." ++ pyStr n) ≠ "" := by
    intro he
    have := congrArg String.data he
    rw [hdata] at this
    cases hnd : natDigits m with
    | nil => exact natDigits_ne_nil m hnd
    | cons a t => rw [hnd] at this; simp at this
  have hall : ∀ c ∈ natDigits m ++ '.' :: natDigits n, pyIsSpaceChar c = false := by
    intro c hc
    rcases List.mem_append.mp hc with h | h
    · exact digit_not_space (natDigits_all_digit m c h)
    · rcases List.mem_cons.mp h with h | h
      · rw [h]; decide
      · exact digit_not_space (natDigits_all_digit n c h)
  have hlower : (natDigits m ++ '.' :: natDigits n).map pyToLower =
      natDigits m ++ '.' :: natDigits n := by
    rw [List.map_congr_left (g := id), List.map_id]
    intro c hc
    rcases List.mem_append.mp hc with h | h
    · exact digit_toLower (natDigits_all_digit m c h)
    · rcases List.mem_cons.mp h with h | h
      · rw [h]; decide
      · exact digit_toLower (natDigits_all_digit n c h)
  have hfilter : (natDigits m ++ '.' :: natDigits n).filter (fun c => c ≠ 'v') =
      natDigits m ++ '.' :: natDigits n := by
    rw [List.filter_eq_self]
    intro c hc
    rcases List.mem_append.mp hc with h | h
    · simp [digit_ne_v (natDigits_all_digit m c h)]
    · rcases List.mem_cons.mp h with h | h
      · rw [h]; decide
      · simp [digit_ne_v (natDigits_all_digit n c h)]
  have hpipeline :
      pySplit '.' (((pyStrip ((pyStr m ++ "." ++ pyStr n)).data).map pyToLower).filter
        (fun c => c ≠ 'v')) = [natDigits m, natDigits n] := by
    rw [hdata, pyStrip_eq_self hall, hlower, hfilter,
        pySplit_append (natDigits n) (dot_not_mem_natDigits m),
        pySplit_of_not_mem (dot_not_mem_natDigits n)]
  simp only [_parse_version, if_neg hne, hpipeline]
  simp [versionFromParts, pyIsDigitStr_natDigits, digitsVal_natDigits]

theorem char_toNat_ofNat {n : Nat} (h : n < 55296) : (Char.ofNat n).toNat = n := by
  unfold Char.ofNat
  rw [dif_pos (Or.inl h)]
  rfl

theorem pyToLower_ne_V (d : Char) : pyToLower d ≠ 'V' := by
  unfold pyToLower
  by_cases h : 65 ≤ d.toNat ∧ d.toNat ≤ 90
  · rw [if_pos h]
    intro he
    have h1 : (Char.ofNat (d.toNat + 32)).toNat = d.toNat + 32 :=
      char_toNat_ofNat (by omega)
    rw [he] at h1
    have h2 : Char.toNat 'V' = 86 := by decide
    omega
  · rw [if_neg h]
    intro he
    have h2 : d.toNat = 86 := by rw [he]; decide
    omega

theorem pyStripS_eq_self_of_no_space (s : String)
    (h : ∀ c ∈ s.data, pyIsSpaceChar c = false) : pyStripS s = s := by
  unfold pyStripS
  rw [pyStrip_eq_self h]

theorem bump_version_strip (cur : Option String) (b : String) :
    pyStripS (_bump_version cur b) = _bump_version cur b ∧ _bump_version cur b ≠ "" := by
  unfold _bump_version
  by_cases hb : b = "major"
  · rw [if_pos hb]
    have hdata : (pyStr ((_parse_version cur).1 + 1) ++ ".0").data =
        natDigits ((_parse_version cur).1 + 1) ++ ['.', '0'] := by
      simp [pyStr, String.data_append]
    constructor
    · apply pyStripS_eq_self_of_no_space
      rw [hdata]
      intro c hc
      rcases List.mem_append.mp hc with h | h
      · exact digit_not_space (natDigits_all_digit _ c h)
      · rcases List.mem_cons.mp h with h | h
        · rw [h]; decide
        · simp only [List.mem_singleton] at h; rw [h]; decide
    · intro he
      have := congrArg String.data he
      rw [hdata] at this
      cases hnd : natDigits ((_parse_version cur).1 + 1) with
      | nil => exact natDigits_ne_nil _ hnd
      | cons a t => rw [hnd] at this; simp at this
  · rw [if_neg hb]
    have hdata : (pyStr (_parse_version cur).1 ++ "." ++ pyStr ((_parse_version cur).2 + 1)).data =
        natDigits (_parse_version cur).1 ++ '.' :: natDigits ((_parse_version cur).2 + 1) := by
      simp [pyStr, String.data_append]
    constructor
    · apply pyStripS_eq_self_of_no_space
      rw [hdata]
      intro c hc
      rcases List.mem_append.mp hc with h | h
      · exact digit_not_space (natDigits_all_digit _ c h)
      · rcases List.mem_cons.mp h with h | h
        · rw [h]; decide
        · exact digit_not_space (natDigits_all_digit _ c h)
    · intro he
      have := congrArg String.data he
      rw [hdata] at this
      cases hnd : natDigits (_parse_version cur).1 with
      | nil => exact natDigits_ne_nil _ hnd
      | cons a t => rw [hnd] at this; simp at this

theorem selectNewVersion_strip (v cur : Option String) (b : String) :
    pyStripS (selectNewVersion v cur b) = selectNewVersion v cur b ∧
    selectNewVersion v cur b ≠ "" := by
  cases v with
  | none => exact bump_version_strip cur b
  | some s =>
    by_cases hs : pyStripS s = ""
    · have h1 : selectNewVersion (some s) cur b = _bump_version cur b := by
        simp [selectNewVersion, hs]
      rw [h1]
      exact bump_version_strip cur b
    · have h1 : selectNewVersion (some s) cur b = pyStripS s := by
        simp [selectNewVersion, hs]
      rw [h1]
      exact ⟨pyStripS_idem s, hs⟩

/-! ## Claim C4 -/

/-- C4 counterexample: with the non-blank explicit version string
`" 2.0 "`, `upload_new_version` uses the STRIPPED string `"2.0"`, not the
supplied string verbatim, refuting the "used verbatim" part of the claim. -/
theorem C4_counterexample :
    selectNewVersion (some " 2.0 ") (some "1.0") "minor" = "2.0" ∧
    ¬ selectNewVersion (some " 2.0 ") (some "1.0") "minor" = " 2.0 " := by
  decide

/-- C4 (amended): for every current version `"m.n"`, a `major` bump yields
`"{m+1}.0"` and a `minor` bump yields `"{m}.{n+1}"`; the malformed current
versions `""`, `None`, `"abc"` and `"v"` all resolve to `(1, 0)` before
bumping; and a supplied explicit version string is used after stripping
surrounding whitespace (verbatim when it has none), with the bump computation
skipped, while a blank or absent one falls back to the bump computation. -/
theorem C4_version_bump_rule :
    (∀ m n : Nat,
      _bump_version (some (pyStr m ++ "." ++ pyStr n)) "major" = pyStr (m + 1) ++ ".0" ∧
      _bump_version (some (pyStr m ++ "." ++ pyStr n)) "minor" = pyStr m ++ "." ++ pyStr (n + 1)) ∧
    (_parse_version (some "") = (1, 0) ∧ _parse_version none = (1, 0) ∧
      _parse_version (some "abc") = (1, 0) ∧ _parse_version (some "v") = (1, 0)) ∧
    (∀ (ver : String) (cur : Option String) (b : String),
      selectNewVersion (some ver) cur b =
        (if pyStripS ver = "" then _bump_version cur b else pyStripS ver)) ∧
    (∀ (cur : Option String) (b : String), selectNewVersion none cur b = _bump_version cur b) := by
  refine ⟨fun m n => ⟨?_, ?_⟩, by decide, fun ver cur b => ?_, fun cur b => rfl⟩
  · unfold _bump_version
    rw [parse_version_mn]
    rfl
  · unfold _bump_version
    rw [parse_version_mn]
    rfl
  · by_cases hs : pyStripS ver = ""
    · simp [selectNewVersion, hs]
    · simp [selectNewVersion, hs]

/-! ## Claim C5 -/

/-- C5 counterexample: `_parse_version` removes EVERY `v` character, not just
a leading one, and strips surrounding whitespace before splitting; on
`"1v2"` the code yields `(12, 0)` where the claimed algorithm yields
`(1, 0)`, and on `" 2.5"` the code yields `(2, 5)` where the claimed
algorithm yields `(1, 5)`. -/
theorem C5_counterexample :
    (_parse_version (some "1v2") = (12, 0) ∧ parse_version_spec (some "1v2") = (1, 0)) ∧
    (_parse_version (some " 2.5") = (2, 5) ∧ parse_version_spec (some " 2.5") = (1, 5)) := by
  decide

/-- C5 (amended): `_parse_version` first strips surrounding whitespace,
lowercases, and removes every `v`/`V` character (not only a leading one);
on the result it behaves exactly as the claimed split-and-default rule, with
`None` and the empty string mapping to `(1, 0)`; in particular
`_parse_version "v2" = (2, 0)`, `_parse_version "2.5.1" = (2, 5)` with extra
segments ignored, and `_parse_version None = (1, 0)`. -/
theorem C5_parse_version_amended :
    (∀ s : String, _parse_version (some s) = parse_version_spec (some (pyNormalizeVersion s))) ∧
    _parse_version (some "v2") = (2, 0) ∧
    _parse_version (some "2.5.1") = (2, 5) ∧
    _parse_version none = (1, 0) := by
  refine ⟨fun s => ?_, by decide, by decide, by decide⟩
  by_cases hs : s = ""
  · subst hs
    decide
  · cases hN0 : ((pyStrip s.data).map pyToLower).filter (fun c => c ≠ 'v') with
    | nil =>
      have hcode : _parse_version (some s) = (1, 0) := by
        simp only [_parse_version, if_neg hs, hN0]
        rfl
      have hnorm0 : pyNormalizeVersion s = "" := by
        show (⟨((pyStrip s.data).map pyToLower).filter (fun c => c ≠ 'v')⟩ : String) = ""
        rw [hN0]
      rw [hcode, hnorm0]
      decide
    | cons c rest =>
      have hcmem : c ∈ ((pyStrip s.data).map pyToLower).filter (fun c => c ≠ 'v') := by
        rw [hN0]
        simp
      have hcv : c ≠ 'v' := by
        have := (List.mem_filter.mp hcmem).2
        simpa using this
      have hcV : c ≠ 'V' := by
        have hmap : c ∈ (pyStrip s.data).map pyToLower := (List.mem_filter.mp hcmem).1
        obtain ⟨d, _, hd⟩ := List.mem_map.mp hmap
        rw [← hd]
        exact pyToLower_ne_V d
      have hdata : (pyNormalizeVersion s).data = c :: rest := hN0
      have hnorm_ne : pyNormalizeVersion s ≠ "" := by
        intro he
        have h2 : (pyNormalizeVersion s).data = ([] : List Char) := congrArg String.data he
        rw [hdata] at h2
        simp at h2
      have hcode : _parse_version (some s) = versionFromParts (pySplit '.' (c :: rest)) := by
        simp only [_parse_version, if_neg hs, hN0]
      have hspec : parse_version_spec (some (pyNormalizeVersion s)) =
          versionFromParts (pySplit '.' (c :: rest)) := by
        simp only [parse_version_spec, if_neg hnorm_ne, hdata]
        have hcs : (if c = 'v' ∨ c = 'V' then rest else c :: rest) = c :: rest := by
          rw [if_neg]
          simp [hcv, hcV]
        rw [hcs]
      rw [hcode, hspec]

/-! ## Lemmas: the upload and rollback transactions -/

theorem uploadStep_doc (fs : UploadFailures) (p : UploadParams) (db : DbState) :
    (uploadStep fs p db).1.doc = db.doc := by
  unfold uploadStep uploadBaselineStep
  by_cases h : fs.baselineStepFails = true
  · rw [if_pos h]
  · rw [if_neg h]
    split <;> rfl

theorem uploadStep_chunks (fs : UploadFailures) (p : UploadParams) (db : DbState) :
    (uploadStep fs p db).1.chunks = db.chunks := by
  unfold uploadStep uploadBaselineStep
  by_cases h : fs.baselineStepFails = true
  · rw [if_pos h]
  · rw [if_neg h]
    split <;> rfl

theorem uploadStep_versions (fs : UploadFailures) (p : UploadParams) (db : DbState) :
    (uploadStep fs p db).1.versions = db.versions ∨
    ∃ base : VersionRow, (uploadStep fs p db).1.versions = db.versions ++ [base] ∧
      base.change_summary = "Initial version snapshot" := by
  unfold uploadStep uploadBaselineStep
  by_cases h : fs.baselineStepFails = true
  · rw [if_pos h]
    left
    rfl
  · rw [if_neg h]
    split
    · left
      rfl
    · right
      exact ⟨_, rfl, rfl⟩

theorem uploadNewMeta_version (p : UploadParams) (db : DbState) (nv : String) :
    (uploadNewMeta p db nv).version = some nv := by
  unfold uploadNewMeta
  split <;> rfl

theorem uploadTxn_error_of_flags (env : PipelineEnv) (fs : UploadFailures) (p : UploadParams)
    (nc : String) (db : DbState)
    (hf : fs.chunkFails = true ∨ fs.embedFails = true ∨ fs.deleteChunksFails = true ∨
      fs.insertChunkFails = true ∨ fs.insertSnapshotFails = true ∨ fs.updateDocFails = true) :
    ∃ e, uploadTxn env fs p nc db = .error e := by
  unfold uploadTxn
  by_cases h0 : p.document_id ≠ db.doc.id
  · rw [if_pos h0]
    exact ⟨_, rfl⟩
  · rw [if_neg h0]
    by_cases h1 : fs.chunkFails = true
    · rw [if_pos h1]
      exact ⟨_, rfl⟩
    · rw [if_neg h1]
      by_cases h2 : fs.embedFails = true
      · rw [if_pos h2]
        exact ⟨_, rfl⟩
      · rw [if_neg h2]
        by_cases h3 : fs.deleteChunksFails = true
        · rw [if_pos h3]
          exact ⟨_, rfl⟩
        · rw [if_neg h3]
          by_cases h4 : fs.insertChunkFails = true
          · rw [if_pos h4]
            exact ⟨_, rfl⟩
          · rw [if_neg h4]
            by_cases h5 : fs.insertSnapshotFails = true
            · rw [if_pos h5]
              exact ⟨_, rfl⟩
            · rw [if_neg h5]
              by_cases h6 : fs.updateDocFails = true
              · rw [if_pos h6]
                exact ⟨_, rfl⟩
              · rcases hf with h | h | h | h | h | h <;> simp_all

theorem uploadTxn_ok_inv {env : PipelineEnv} {fs : UploadFailures} {p : UploadParams}
    {nc : String} {db : DbState} {x : DbState × String}
    (h : uploadTxn env fs p nc db = .ok x) :
    p.document_id = db.doc.id ∧
    x = (uploadFinalState env fs p nc db, uploadVersionOf fs p db) := by
  unfold uploadTxn at h
  by_cases h0 : p.document_id ≠ db.doc.id
  · rw [if_pos h0] at h
    simp at h
  · rw [if_neg h0] at h
    refine ⟨not_not.mp h0, ?_⟩
    by_cases h1 : fs.chunkFails = true
    · rw [if_pos h1] at h
      simp at h
    · rw [if_neg h1] at h
      by_cases h2 : fs.embedFails = true
      · rw [if_pos h2] at h
        simp at h
      · rw [if_neg h2] at h
        by_cases h3 : fs.deleteChunksFails = true
        · rw [if_pos h3] at h
          simp at h
        · rw [if_neg h3] at h
          by_cases h4 : fs.insertChunkFails = true
          · rw [if_pos h4] at h
            simp at h
          · rw [if_neg h4] at h
            by_cases h5 : fs.insertSnapshotFails = true
            · rw [if_pos h5] at h
              simp at h
            · rw [if_neg h5] at h
              by_cases h6 : fs.updateDocFails = true
              · rw [if_pos h6] at h
                simp at h
              · rw [if_neg h6] at h
                injection h with h2
                exact h2.symm

theorem uploadFinalState_eq (env : PipelineEnv) (fs : UploadFailures) (p : UploadParams)
    (nc : String) (db : DbState) :
    uploadFinalState env fs p nc db =
      { doc := { db.doc with
                  content := some nc,
                  metadata := some (uploadNewMeta p db (uploadVersionOf fs p db)) },
        versions := (uploadStep fs p db).1.versions ++
          [uploadSnapRow p nc (uploadVersionOf fs p db)
            (uploadNewMeta p db (uploadVersionOf fs p db)) (uploadStep fs p db).1.versions.length],
        chunks := (env.embedChunks (env.chunkDocument nc db.doc.title (uploadSource p db)
          (uploadNewMeta p db (uploadVersionOf fs p db)))).map chunkRowOf } := by
  simp only [uploadFinalState, uploadVersionOf]
  rw [uploadStep_doc]

theorem upload_error_state {env : PipelineEnv} {fs : UploadFailures} {p : UploadParams}
    {db : DbState} {e : ApiError}
    (h : (upload_new_version env fs p db).1 = .error e) :
    (upload_new_version env fs p db).2 = db := by
  unfold upload_new_version at h ⊢
  by_cases h1 : pyStripS p.change_summary = ""
  · rw [if_pos h1]
  · rw [if_neg h1] at h ⊢
    by_cases h2 : p.readFails = true
    · rw [if_pos h2]
    · rw [if_neg h2] at h ⊢
      cases htxn : uploadTxn env fs p (pyDecodeUpload p.raw) db with
      | error e2 => rfl
      | ok pr =>
        obtain ⟨db2, v⟩ := pr
        rw [htxn] at h
        simp at h

theorem upload_ok_inv {env : PipelineEnv} {fs : UploadFailures} {p : UploadParams}
    {db : DbState} {v : String}
    (h : (upload_new_version env fs p db).1 = .ok v) :
    pyStripS p.change_summary ≠ "" ∧ p.readFails = false ∧
    uploadTxn env fs p (pyDecodeUpload p.raw) db =
      .ok ((upload_new_version env fs p db).2, v) := by
  unfold upload_new_version at h ⊢
  by_cases h1 : pyStripS p.change_summary = ""
  · rw [if_pos h1] at h
    simp at h
  · rw [if_neg h1] at h ⊢
    by_cases h2 : p.readFails = true
    · rw [if_pos h2] at h
      simp at h
    · rw [if_neg h2] at h ⊢
      refine ⟨h1, by simpa using h2, ?_⟩
      cases htxn : uploadTxn env fs p (pyDecodeUpload p.raw) db with
      | error e2 =>
        rw [htxn] at h
        simp at h
      | ok pr =>
        obtain ⟨db2, v2⟩ := pr
        rw [htxn] at h
        simp at h
        simp [h]

theorem rollbackTxn_error_of_flags (env : PipelineEnv) (fs : RollbackFailures)
    (docid vid : String) (db : DbState)
    (hf : fs.chunkFails = true ∨ fs.embedFails = true ∨ fs.deleteChunksFails = true ∨
      fs.insertChunkFails = true ∨ fs.updateDocFails = true) :
    ∃ e, rollbackTxn env fs docid vid db = .error e := by
  unfold rollbackTxn
  cases hfind : db.versions.find? (fun r => r.rowId = vid) with
  | none => exact ⟨_, rfl⟩
  | some ver =>
    show ∃ e, rollbackBody env fs docid db ver = .error e
    unfold rollbackBody
    by_cases h0 : docid ≠ db.doc.id
    · rw [if_pos h0]
      exact ⟨_, rfl⟩
    · rw [if_neg h0]
      by_cases h1 : fs.chunkFails = true
      · rw [if_pos h1]
        exact ⟨_, rfl⟩
      · rw [if_neg h1]
        by_cases h2 : fs.embedFails = true
        · rw [if_pos h2]
          exact ⟨_, rfl⟩
        · rw [if_neg h2]
          by_cases h3 : fs.deleteChunksFails = true
          · rw [if_pos h3]
            exact ⟨_, rfl⟩
          · rw [if_neg h3]
            by_cases h4 : fs.insertChunkFails = true
            · rw [if_pos h4]
              exact ⟨_, rfl⟩
            · rw [if_neg h4]
              by_cases h5 : fs.updateDocFails = true
              · rw [if_pos h5]
                exact ⟨_, rfl⟩
              · rcases hf with h | h | h | h | h <;> simp_all

theorem rollbackTxn_ok_inv {env : PipelineEnv} {fs : RollbackFailures}
    {docid vid : String} {db : DbState} {x : DbState × String}
    (h : rollbackTxn env fs docid vid db = .ok x) :
    ∃ ver, db.versions.find? (fun r => r.rowId = vid) = some ver ∧
      docid = db.doc.id ∧
      x = (rollbackFinalState env db ver, ver.version) := by
  unfold rollbackTxn at h
  cases hfind : db.versions.find? (fun r => r.rowId = vid) with
  | none =>
    rw [hfind] at h
    simp at h
  | some ver =>
    rw [hfind] at h
    replace h : rollbackBody env fs docid db ver = .ok x := h
    unfold rollbackBody at h
    refine ⟨ver, rfl, ?_⟩
    by_cases h0 : docid ≠ db.doc.id
    · rw [if_pos h0] at h
      simp at h
    · rw [if_neg h0] at h
      refine ⟨not_not.mp h0, ?_⟩
      by_cases h1 : fs.chunkFails = true
      · rw [if_pos h1] at h
        simp at h
      · rw [if_neg h1] at h
        by_cases h2 : fs.embedFails = true
        · rw [if_pos h2] at h
          simp at h
        · rw [if_neg h2] at h
          by_cases h3 : fs.deleteChunksFails = true
          · rw [if_pos h3] at h
            simp at h
          · rw [if_neg h3] at h
            by_cases h4 : fs.insertChunkFails = true
            · rw [if_pos h4] at h
              simp at h
            · rw [if_neg h4] at h
              by_cases h5 : fs.updateDocFails = true
              · rw [if_pos h5] at h
                simp at h
              · rw [if_neg h5] at h
                injection h with h2
                exact h2.symm

theorem rollback_error_state {env : PipelineEnv} {fs : RollbackFailures}
    {docid vid : String} {db : DbState} {e : ApiError}
    (h : (rollback_version env fs docid vid db).1 = .error e) :
    (rollback_version env fs docid vid db).2 = db := by
  unfold rollback_version at h ⊢
  cases htxn : rollbackTxn env fs docid vid db with
  | error e2 => rfl
  | ok pr =>
    obtain ⟨db2, v⟩ := pr
    rw [htxn] at h
    simp at h

theorem rollback_ok_inv {env : PipelineEnv} {fs : RollbackFailures}
    {docid vid : String} {db : DbState} {v : String}
    (h : (rollback_version env fs docid vid db).1 = .ok v) :
    rollbackTxn env fs docid vid db = .ok ((rollback_version env fs docid vid db).2, v) := by
  unfold rollback_version at h ⊢
  cases htxn : rollbackTxn env fs docid vid db with
  | error e2 =>
    rw [htxn] at h
    simp at h
  | ok pr =>
    obtain ⟨db2, v2⟩ := pr
    rw [htxn] at h
    simp at h
    simp [h]

/-! ## Claim C1 -/

/-- C1: upload and rollback are atomic.  Any error (including a failing
chunking, embedding, chunk-deletion, chunk-insertion, snapshot-insertion or
document-update step) leaves the database exactly as it was; a failing listed
step always yields an error; and a successful call commits the chunk
replacement, the snapshot insertion (for upload) and the document-row update
together, with rollback additionally leaving the version table untouched. -/
theorem C1_transaction_atomicity :
    (∀ (env : PipelineEnv) (fs : UploadFailures) (p : UploadParams) (db : DbState) (e : ApiError),
      (upload_new_version env fs p db).1 = .error e → (upload_new_version env fs p db).2 = db) ∧
    (∀ (env : PipelineEnv) (fs : UploadFailures) (p : UploadParams) (db : DbState),
      fs.chunkFails = true ∨ fs.embedFails = true ∨ fs.deleteChunksFails = true ∨
        fs.insertChunkFails = true ∨ fs.insertSnapshotFails = true ∨ fs.updateDocFails = true →
      ∃ e, (upload_new_version env fs p db).1 = .error e) ∧
    (∀ (env : PipelineEnv) (fs : UploadFailures) (p : UploadParams) (db : DbState) (v : String),
      (upload_new_version env fs p db).1 = .ok v →
      v = uploadVersionOf fs p db ∧
      (upload_new_version env fs p db).2 =
        { doc := { db.doc with
                    content := some (pyDecodeUpload p.raw),
                    metadata := some (uploadNewMeta p db v) },
          versions := (uploadStep fs p db).1.versions ++
            [uploadSnapRow p (pyDecodeUpload p.raw) v (uploadNewMeta p db v)
              (uploadStep fs p db).1.versions.length],
          chunks := (env.embedChunks (env.chunkDocument (pyDecodeUpload p.raw) db.doc.title
            (uploadSource p db) (uploadNewMeta p db v))).map chunkRowOf } ∧
      ((uploadStep fs p db).1.versions = db.versions ∨
        ∃ base, (uploadStep fs p db).1.versions = db.versions ++ [base] ∧
          base.change_summary = "Initial version snapshot")) ∧
    (∀ (env : PipelineEnv) (fs : RollbackFailures) (docid vid : String) (db : DbState)
        (e : ApiError),
      (rollback_version env fs docid vid db).1 = .error e →
      (rollback_version env fs docid vid db).2 = db) ∧
    (∀ (env : PipelineEnv) (fs : RollbackFailures) (docid vid : String) (db : DbState),
      fs.chunkFails = true ∨ fs.embedFails = true ∨ fs.deleteChunksFails = true ∨
        fs.insertChunkFails = true ∨ fs.updateDocFails = true →
      ∃ e, (rollback_version env fs docid vid db).1 = .error e) ∧
    (∀ (env : PipelineEnv) (fs : RollbackFailures) (docid vid : String) (db : DbState)
        (v : String),
      (rollback_version env fs docid vid db).1 = .ok v →
      ∃ ver, db.versions.find? (fun r => r.rowId = vid) = some ver ∧ v = ver.version ∧
        (rollback_version env fs docid vid db).2 = rollbackFinalState env db ver) := by
  refine ⟨?_, ?_, ?_, ?_, ?_, ?_⟩
  · intro env fs p db e h
    exact upload_error_state h
  · intro env fs p db hf
    by_cases h1 : pyStripS p.change_summary = ""
    · exact ⟨_, by unfold upload_new_version; rw [if_pos h1]⟩
    · by_cases h2 : p.readFails = true
      · exact ⟨_, by unfold upload_new_version; rw [if_neg h1, if_pos h2]⟩
      · obtain ⟨e, he⟩ := uploadTxn_error_of_flags env fs p (pyDecodeUpload p.raw) db hf
        refine ⟨e, ?_⟩
        unfold upload_new_version
        rw [if_neg h1, if_neg h2, he]
  · intro env fs p db v h
    obtain ⟨hcs, hrf, htxn⟩ := upload_ok_inv h
    obtain ⟨hid, hx⟩ := uploadTxn_ok_inv htxn
    have h1 : (upload_new_version env fs p db).2 = uploadFinalState env fs p (pyDecodeUpload p.raw) db := by
      have := congrArg Prod.fst hx
      simpa using this
    have h2 : v = uploadVersionOf fs p db := by
      have := congrArg Prod.snd hx
      simpa using this
    subst h2
    exact ⟨rfl, by rw [h1, uploadFinalState_eq], uploadStep_versions fs p db⟩
  · intro env fs docid vid db e h
    exact rollback_error_state h
  · intro env fs docid vid db hf
    obtain ⟨e, he⟩ := rollbackTxn_error_of_flags env fs docid vid db hf
    refine ⟨e, ?_⟩
    unfold rollback_version
    rw [he]
  · intro env fs docid vid db v h
    have htxn := rollback_ok_inv h
    obtain ⟨ver, hfind, hid, hx⟩ := rollbackTxn_ok_inv htxn
    have h1 : (rollback_version env fs docid vid db).2 = rollbackFinalState env db ver := by
      have := congrArg Prod.fst hx
      simpa using this
    have h2 : v = ver.version := by
      have := congrArg Prod.snd hx
      simpa using this
    exact ⟨ver, hfind, h2, h1⟩

/-- C1 witness: the injected chunking failure leaves both fixture databases
untouched. -/
theorem C1_transaction_atomicity_witness :
    (upload_new_version testEnv failChunkUpload testParams testDb).2 = testDb ∧
    (rollback_version testEnv failChunkRollback "d1" "v0" testDbWithVersion).2 =
      testDbWithVersion := by
  constructor
  · exact C1_transaction_atomicity.1 testEnv failChunkUpload testParams testDb
      (.stepFailure "chunk_document") rfl
  · exact C1_transaction_atomicity.2.2.2.1 testEnv failChunkRollback "d1" "v0"
      testDbWithVersion (.stepFailure "chunk_document") rfl

/-! ## Lemmas: failure-free runs -/

theorem uploadTxn_noFail (env : PipelineEnv) (p : UploadParams) (nc : String) (db : DbState)
    (hid : p.document_id = db.doc.id) :
    uploadTxn env noUploadFailures p nc db =
      .ok (uploadFinalState env noUploadFailures p nc db,
           uploadVersionOf noUploadFailures p db) := by
  unfold uploadTxn
  rw [if_neg (by simp [hid])]
  rfl

theorem upload_noFail (env : PipelineEnv) (p : UploadParams) (db : DbState)
    (hcs : pyStripS p.change_summary ≠ "") (hrf : p.readFails = false)
    (hid : p.document_id = db.doc.id) :
    upload_new_version env noUploadFailures p db =
      (.ok (uploadVersionOf noUploadFailures p db),
       uploadFinalState env noUploadFailures p (pyDecodeUpload p.raw) db) := by
  unfold upload_new_version
  rw [if_neg hcs, if_neg (by simp [hrf]), uploadTxn_noFail env p (pyDecodeUpload p.raw) db hid]

theorem rollbackOldContent_eq (ver : VersionRow) : rollbackOldContent ver = ver.content := by
  unfold rollbackOldContent
  by_cases h : ver.content = ""
  · simp [h]
  · simp [h]

theorem rollbackTxn_noFail (env : PipelineEnv) (docid vid : String) (db : DbState)
    (ver : VersionRow)
    (hfind : db.versions.find? (fun r => r.rowId = vid) = some ver)
    (hid : docid = db.doc.id) :
    rollbackTxn env noRollbackFailures docid vid db =
      .ok (rollbackFinalState env db ver, ver.version) := by
  unfold rollbackTxn
  rw [hfind]
  show rollbackBody env noRollbackFailures docid db ver = _
  unfold rollbackBody
  rw [if_neg (by simp [hid])]
  rfl

theorem rollback_noFail (env : PipelineEnv) (docid vid : String) (db : DbState)
    (ver : VersionRow)
    (hfind : db.versions.find? (fun r => r.rowId = vid) = some ver)
    (hid : docid = db.doc.id) :
    rollback_version env noRollbackFailures docid vid db =
      (.ok ver.version, rollbackFinalState env db ver) := by
  unfold rollback_version
  rw [rollbackTxn_noFail env docid vid db ver hfind hid]

/-! ## Claim C3 -/

/-- C3: a successful rollback to an existing snapshot restores the stored
content and metadata to exactly the snapshot content and metadata, and the
version-history table is left unchanged — rollback inserts zero
version-snapshot rows. -/
theorem C3_rollback_restores_verbatim :
    ∀ (env : PipelineEnv) (docid vid : String) (db : DbState) (ver : VersionRow),
      db.versions.find? (fun r => r.rowId = vid) = some ver →
      docid = db.doc.id →
      (rollback_version env noRollbackFailures docid vid db).1 = .ok ver.version ∧
      (rollback_version env noRollbackFailures docid vid db).2.doc.content = some ver.content ∧
      (rollback_version env noRollbackFailures docid vid db).2.doc.metadata = some ver.metadata ∧
      (rollback_version env noRollbackFailures docid vid db).2.versions = db.versions := by
  intro env docid vid db ver hfind hid
  rw [rollback_noFail env docid vid db ver hfind hid]
  refine ⟨rfl, ?_, rfl, rfl⟩
  show some (rollbackOldContent ver) = some ver.content
  rw [rollbackOldContent_eq]

/-- C3 witness: rolling the fixture document back to snapshot `v0`. -/
theorem C3_rollback_restores_verbatim_witness :
    (rollback_version testEnv noRollbackFailures "d1" "v0" testDbWithVersion).2.doc.content =
      some "old" ∧
    (rollback_version testEnv noRollbackFailures "d1" "v0" testDbWithVersion).2.versions =
      testDbWithVersion.versions := by
  have h := C3_rollback_restores_verbatim testEnv "d1" "v0" testDbWithVersion
    { rowId := "v0", version := "1.0", change_summary := "Initial version snapshot",
      content := "old", metadata := { emptyMeta with version := some "1.0" },
      file_path := none, file_mime := none, file_size := none, created_by := none }
    (by decide) rfl
  exact ⟨h.2.1, h.2.2.2⟩

/-! ## Claim C2 -/

theorem uploadStep_noFail (p : UploadParams) (db : DbState) :
    uploadStep noUploadFailures p db = uploadBaselineStep p db := rfl

theorem uploadBaselineStep_of_empty (p : UploadParams) (db : DbState)
    (hv : db.versions = []) :
    (uploadBaselineStep p db).1.versions = [uploadBaseRow p db] := by
  unfold uploadBaselineStep
  rw [hv]
  simp

theorem uploadPrevVer_some (s : String) (h : pyStripS s ≠ "") :
    uploadPrevVer (some s) = s := by
  show (if pyStripS s ≠ "" then s else "1.0") = s
  rw [if_pos h]

theorem uploadBaselineStep_of_exists (p : UploadParams) (db : DbState)
    (hex : db.versions.any
      (fun r => r.version = uploadPrevVer (db.doc.metadata.getD emptyMeta).version) = true) :
    (uploadBaselineStep p db).1.versions = db.versions := by
  unfold uploadBaselineStep
  rw [if_pos hex]

/-- C2: the baseline snapshot is created at most once.  In the two-upload
scenario the claim describes — a document with an empty version history and
two sequential failure-free uploads whose user change summaries differ from
the synthetic marker — exactly one row with change summary
"Initial version snapshot" exists afterwards. -/
theorem C2_baseline_snapshot_once :
    ∀ (env1 env2 : PipelineEnv) (p1 p2 : UploadParams) (db : DbState),
      db.versions = [] →
      p1.document_id = db.doc.id → p2.document_id = db.doc.id →
      pyStripS p1.change_summary ≠ "" → p1.readFails = false →
      pyStripS p2.change_summary ≠ "" → p2.readFails = false →
      p1.change_summary ≠ "Initial version snapshot" →
      p2.change_summary ≠ "Initial version snapshot" →
      (((upload_new_version env2 noUploadFailures p2
          (upload_new_version env1 noUploadFailures p1 db).2).2).versions.filter
        (fun r => r.change_summary = "Initial version snapshot")).length = 1 := by
  intro env1 env2 p1 p2 db hv hid1 hid2 hcs1 hrf1 hcs2 hrf2 hm1 hm2
  have e1 := upload_noFail env1 p1 db hcs1 hrf1 hid1
  have hdb1 : (upload_new_version env1 noUploadFailures p1 db).2 =
      uploadFinalState env1 noUploadFailures p1 (pyDecodeUpload p1.raw) db := by
    rw [e1]
  rw [hdb1]
  have hid2' : p2.document_id =
      (uploadFinalState env1 noUploadFailures p1 (pyDecodeUpload p1.raw) db).doc.id := by
    rw [uploadFinalState_eq]
    exact hid2
  have e2 := upload_noFail env2 p2 _ hcs2 hrf2 hid2'
  have hdb2 : (upload_new_version env2 noUploadFailures p2
      (uploadFinalState env1 noUploadFailures p1 (pyDecodeUpload p1.raw) db)).2 =
      uploadFinalState env2 noUploadFailures p2 (pyDecodeUpload p2.raw)
        (uploadFinalState env1 noUploadFailures p1 (pyDecodeUpload p1.raw) db) := by
    rw [e2]
  rw [hdb2]
  -- abbreviations for the first upload
  have hv1strip := selectNewVersion_strip p1.version (uploadStep noUploadFailures p1 db).2 p1.bump
  -- the committed first state, made explicit
  rw [uploadFinalState_eq env2 noUploadFailures p2 (pyDecodeUpload p2.raw) _]
  -- versions of db1
  have hdb1versions :
      (uploadFinalState env1 noUploadFailures p1 (pyDecodeUpload p1.raw) db).versions =
        [uploadBaseRow p1 db] ++
          [uploadSnapRow p1 (pyDecodeUpload p1.raw) (uploadVersionOf noUploadFailures p1 db)
            (uploadNewMeta p1 db (uploadVersionOf noUploadFailures p1 db))
            (uploadStep noUploadFailures p1 db).1.versions.length] := by
    rw [uploadFinalState_eq]
    rw [uploadStep_noFail, uploadBaselineStep_of_empty p1 db hv]
  have hdb1meta :
      (uploadFinalState env1 noUploadFailures p1 (pyDecodeUpload p1.raw) db).doc.metadata =
        some (uploadNewMeta p1 db (uploadVersionOf noUploadFailures p1 db)) := by
    rw [uploadFinalState_eq]
  -- the second upload's baseline check finds the first snapshot row
  have hprev2 : uploadPrevVer
      (((uploadFinalState env1 noUploadFailures p1 (pyDecodeUpload p1.raw) db).doc.metadata.getD
        emptyMeta).version) = uploadVersionOf noUploadFailures p1 db := by
    rw [hdb1meta]
    show uploadPrevVer (uploadNewMeta p1 db (uploadVersionOf noUploadFailures p1 db)).version = _
    rw [uploadNewMeta_version]
    refine uploadPrevVer_some _ ?_
    show pyStripS (selectNewVersion p1.version (uploadStep noUploadFailures p1 db).2 p1.bump) ≠ ""
    rw [hv1strip.1]
    exact hv1strip.2
  have hex2 : ((uploadFinalState env1 noUploadFailures p1 (pyDecodeUpload p1.raw) db).versions.any
      (fun r => r.version = uploadPrevVer
        (((uploadFinalState env1 noUploadFailures p1 (pyDecodeUpload p1.raw) db).doc.metadata.getD
          emptyMeta).version))) = true := by
    rw [hprev2, hdb1versions]
    rw [List.any_eq_true]
    refine ⟨uploadSnapRow p1 (pyDecodeUpload p1.raw) (uploadVersionOf noUploadFailures p1 db)
      (uploadNewMeta p1 db (uploadVersionOf noUploadFailures p1 db))
      (uploadStep noUploadFailures p1 db).1.versions.length, by simp, by simp [uploadSnapRow]⟩
  have hstep2 : (uploadStep noUploadFailures p2
      (uploadFinalState env1 noUploadFailures p1 (pyDecodeUpload p1.raw) db)).1.versions =
      (uploadFinalState env1 noUploadFailures p1 (pyDecodeUpload p1.raw) db).versions := by
    rw [uploadStep_noFail]
    exact uploadBaselineStep_of_exists p2 _ hex2
  rw [hstep2, hdb1versions]
  simp [List.filter_append, List.filter, uploadSnapRow, uploadBaseRow, hm1, hm2]

/-- C2 witness: the concrete two-upload scenario on the fixture document
leaves exactly one baseline row. -/
theorem C2_baseline_snapshot_once_witness :
    (((upload_new_version testEnv noUploadFailures testParams2
        (upload_new_version testEnv noUploadFailures testParams testDb).2).2).versions.filter
      (fun r => r.change_summary = "Initial version snapshot")).length = 1 :=
  C2_baseline_snapshot_once testEnv testEnv testParams testParams2 testDb rfl rfl rfl
    (by decide) rfl (by decide) rfl (by decide) (by decide)

/-! ## Claim C10 -/

theorem uploadTxn_error_values {env : PipelineEnv} {fs : UploadFailures} {p : UploadParams}
    {nc : String} {db : DbState} {e : ApiError}
    (h : uploadTxn env fs p nc db = .error e) :
    e = .httpError 404 "Document not found" ∨ ∃ step, e = .stepFailure step := by
  unfold uploadTxn at h
  by_cases h0 : p.document_id ≠ db.doc.id
  · rw [if_pos h0] at h
    left
    injection h with h2
    exact h2.symm
  · rw [if_neg h0] at h
    by_cases h1 : fs.chunkFails = true
    · rw [if_pos h1] at h
      right
      injection h with h2
      exact ⟨_, h2.symm⟩
    · rw [if_neg h1] at h
      by_cases h2 : fs.embedFails = true
      · rw [if_pos h2] at h
        right
        injection h with h9
        exact ⟨_, h9.symm⟩
      · rw [if_neg h2] at h
        by_cases h3 : fs.deleteChunksFails = true
        · rw [if_pos h3] at h
          right
          injection h with h9
          exact ⟨_, h9.symm⟩
        · rw [if_neg h3] at h
          by_cases h4 : fs.insertChunkFails = true
          · rw [if_pos h4] at h
            right
            injection h with h9
            exact ⟨_, h9.symm⟩
          · rw [if_neg h4] at h
            by_cases h5 : fs.insertSnapshotFails = true
            · rw [if_pos h5] at h
              right
              injection h with h9
              exact ⟨_, h9.symm⟩
            · rw [if_neg h5] at h
              by_cases h6 : fs.updateDocFails = true
              · rw [if_pos h6] at h
                right
                injection h with h9
                exact ⟨_, h9.symm⟩
              · rw [if_neg h6] at h
                simp at h

theorem latin1IgnoreDecode_length :
    ∀ (raw : List Nat), (∀ b ∈ raw, b < 256) →
      (latin1IgnoreDecode raw).length = raw.length
  | [], _ => rfl
  | b :: t, h => by
    have hb : b < 256 := h b (by simp)
    have ht : ∀ x ∈ t, x < 256 := fun x hx => h x (List.mem_cons_of_mem b hx)
    unfold latin1IgnoreDecode
    rw [List.filterMap_cons]
    simp only [hb, if_pos]
    show ((Char.ofNat b) :: latin1IgnoreDecode t).length = t.length + 1
    rw [List.length_cons, latin1IgnoreDecode_length t ht]

/-- C10: decoding the uploaded bytes is total — bytes that are not valid
UTF-8 fall back to latin-1 with ignored-error handling, which decodes every
byte (nothing is dropped), so the "Failed to read file" error can only arise
from the file read itself, never from decoding; a non-UTF-8 upload proceeds
with the latin-1 text. -/
theorem C10_decode_total :
    (∀ raw : List Nat,
      (utf8Decode raw = none → pyDecodeUpload raw = ⟨latin1IgnoreDecode raw⟩) ∧
      (∀ cs, utf8Decode raw = some cs → pyDecodeUpload raw = ⟨cs⟩)) ∧
    (∀ raw : List Nat, (∀ b ∈ raw, b < 256) →
      (latin1IgnoreDecode raw).length = raw.length) ∧
    (∀ (env : PipelineEnv) (fs : UploadFailures) (p : UploadParams) (db : DbState),
      p.readFails = false →
      (upload_new_version env fs p db).1 ≠ .error (.httpError 400 "Failed to read file")) := by
  refine ⟨fun raw => ⟨fun hn => ?_, fun cs hs => ?_⟩, latin1IgnoreDecode_length, ?_⟩
  · unfold pyDecodeUpload
    rw [hn]
  · unfold pyDecodeUpload
    rw [hs]
  · intro env fs p db hrf hcon
    unfold upload_new_version at hcon
    by_cases h1 : pyStripS p.change_summary = ""
    · rw [if_pos h1] at hcon
      simp only [] at hcon
      injection hcon with h2
      injection h2 with h3 h4
      exact absurd h4 (by decide)
    · rw [if_neg h1, if_neg (by simp [hrf])] at hcon
      cases htxn : uploadTxn env fs p (pyDecodeUpload p.raw) db with
      | ok pr =>
        obtain ⟨db2, v⟩ := pr
        rw [htxn] at hcon
        simp at hcon
      | error e =>
        rw [htxn] at hcon
        replace hcon : Except.error (α := String) e =
            .error (ApiError.httpError 400 "Failed to read file") := hcon
        injection hcon with h2
        rcases uploadTxn_error_values htxn with h3 | ⟨step, h3⟩
        · rw [h3] at h2
          injection h2 with h4 h5
          exact absurd h4 (by decide)
        · rw [h3] at h2
          cases h2

/-- C10 witness: the fixture upload with invalid-UTF-8 bytes `[255, 104]`
decodes via latin-1 and never hits the read-failure branch. -/
theorem C10_decode_total_witness :
    pyDecodeUpload [255, 104] = ⟨latin1IgnoreDecode [255, 104]⟩ ∧
    (latin1IgnoreDecode [255, 104]).length = 2 ∧
    (upload_new_version testEnv noUploadFailures testParamsBadUtf8 testDb).1 ≠
      .error (.httpError 400 "Failed to read file") := by
  refine ⟨(C10_decode_total.1 [255, 104]).1 (by decide), ?_, ?_⟩
  · exact C10_decode_total.2.1 [255, 104] (by decide)
  · exact C10_decode_total.2.2 testEnv noUploadFailures testParamsBadUtf8 testDb rfl

/-! ## Claim C9 -/

/-- C9 counterexample: resolving a right selector that names no existing
snapshot does NOT fail with a not-found error — it resolves to the empty
string and the compare succeeds (shown with a stub diff). -/
theorem C9_counterexample :
    compare_versions testDbWithVersion (fun _ _ _ _ => []) testComparePayload = .ok "" ∧
    testDbWithVersion.versions.find? (fun r => r.rowId = "missing") = none := by
  decide

/-- C9 (amended): `"current"` resolves to the document content (empty when
null); any other selector resolves to the identified snapshot content when
the row exists and to the empty string when it does not (no NotFoundError);
a missing right selector fails with a 400 validation error; and the result
joins the external line-oriented unified diff computed over
trailing-newline-preserving line splits of the two resolved contents. -/
theorem C9_compare_amended :
    (∀ (db : DbState) (udiff : List String → List String → String → String → List String)
        (payload : CompareRequest),
      (optTruthy (pyOrStr payload.right payload.right_version_id) = false →
        compare_versions db udiff payload = .error (.httpError 400 "right version is required")) ∧
      (optTruthy (pyOrStr payload.right payload.right_version_id) = true →
        compare_versions db udiff payload = .ok (String.join (udiff
          (pySplitlinesKeependsS (getContent db
            (pyOrStr payload.left (pyOrStr payload.left_version_id (some "current")))))
          (pySplitlinesKeependsS (getContent db (pyOrStr payload.right payload.right_version_id)))
          ((pyOrStr payload.left (pyOrStr payload.left_version_id (some "current"))).getD "")
          ((pyOrStr payload.right payload.right_version_id).getD ""))))) ∧
    (∀ db : DbState, getContent db (some "current") = db.doc.content.getD "") ∧
    (∀ (db : DbState) (s : String), s ≠ "" → s ≠ "current" →
      db.versions.find? (fun r => r.rowId = s) = none → getContent db (some s) = "") ∧
    (∀ (db : DbState) (s : String) (row : VersionRow), s ≠ "" → s ≠ "current" →
      db.versions.find? (fun r => r.rowId = s) = some row →
      getContent db (some s) = row.content) := by
  refine ⟨fun db udiff payload => ⟨fun hf => ?_, fun ht => ?_⟩, fun db => ?_,
    fun db s h1 h2 hfind => ?_, fun db s row h1 h2 hfind => ?_⟩
  · unfold compare_versions
    rw [if_pos (by simp [hf])]
  · unfold compare_versions
    rw [if_neg (by simp [ht])]
  · show (if ("current" : String) = "" then ""
      else if ("current" : String) = "current" then
        match db.doc.content with
        | some c => if c ≠ "" then c else ""
        | none => ""
      else
        match db.versions.find? (fun r => r.rowId = "current") with
        | some row => if row.content ≠ "" then row.content else ""
        | none => "") = db.doc.content.getD ""
    rw [if_neg (by decide), if_pos rfl]
    cases hc : db.doc.content with
    | none => rfl
    | some c =>
      show (if c ≠ "" then c else "") = c
      by_cases h : c = ""
      · rw [if_neg (by simp [h]), h]
      · rw [if_pos h]
  · show (if s = "" then ""
      else if s = "current" then
        match db.doc.content with
        | some c => if c ≠ "" then c else ""
        | none => ""
      else
        match db.versions.find? (fun r => r.rowId = s) with
        | some row => if row.content ≠ "" then row.content else ""
        | none => "") = ""
    rw [if_neg h1, if_neg h2, hfind]
  · show (if s = "" then ""
      else if s = "current" then
        match db.doc.content with
        | some c => if c ≠ "" then c else ""
        | none => ""
      else
        match db.versions.find? (fun r => r.rowId = s) with
        | some row => if row.content ≠ "" then row.content else ""
        | none => "") = row.content
    rw [if_neg h1, if_neg h2, hfind]
    show (if row.content ≠ "" then row.content else "") = row.content
    by_cases h : row.content = ""
    · rw [if_neg (by simp [h]), h]
    · rw [if_pos h]

/-- C9 witness: the amended resolution rules at the fixture database. -/
theorem C9_compare_amended_witness :
    getContent testDbWithVersion (some "current") = "new" ∧
    getContent testDbWithVersion (some "missing") = "" ∧
    getContent testDbWithVersion (some "v0") = "old" ∧
    compare_versions testDbWithVersion (fun _ _ _ _ => ["x"]) testComparePayload = .ok "x" := by
  refine ⟨C9_compare_amended.2.1 testDbWithVersion, ?_, ?_, ?_⟩
  · exact C9_compare_amended.2.2.1 testDbWithVersion "missing" (by decide) (by decide) (by decide)
  · exact C9_compare_amended.2.2.2 testDbWithVersion "v0"
      { rowId := "v0", version := "1.0", change_summary := "Initial version snapshot",
        content := "old", metadata := { emptyMeta with version := some "1.0" },
        file_path := none, file_mime := none, file_size := none, created_by := none }
      (by decide) (by decide) (by decide)
  · exact (C9_compare_amended.1 testDbWithVersion (fun _ _ _ _ => ["x"]) testComparePayload).2
      (by decide)

/-! ## Claim C8 -/

theorem runTesseractLoop_ok_first (recog : String → RecogOutcome) :
    ∀ (pre : List String) (lang : String) (post errs : List String) (t : String),
      (∀ l ∈ pre, ∃ m, recog l = .tessError m) → recog lang = .ok t →
      runTesseractLoop recog (pre ++ lang :: post) errs = .ok (pyStripS t, lang)
  | [], lang, post, errs, t, _, hok => by
    show runTesseractLoop recog (lang :: post) errs = .ok (pyStripS t, lang)
    unfold runTesseractLoop
    rw [hok]
  | l :: pre, lang, post, errs, t, herr, hok => by
    obtain ⟨m, hm⟩ := herr l (by simp)
    show runTesseractLoop recog (l :: (pre ++ lang :: post)) errs = .ok (pyStripS t, lang)
    unfold runTesseractLoop
    rw [hm]
    exact runTesseractLoop_ok_first recog pre lang post _ t
      (fun x hx => herr x (List.mem_cons_of_mem l hx)) hok

theorem runTesseractLoop_notFound (recog : String → RecogOutcome) :
    ∀ (pre : List String) (lang : String) (post errs : List String),
      (∀ l ∈ pre, ∃ m, recog l = .tessError m) → recog lang = .notFound →
      runTesseractLoop recog (pre ++ lang :: post) errs =
        .error (.ocrError "Tesseract binary not found. Ensure Tesseract OCR is installed and available on PATH.")
  | [], lang, post, errs, _, hnf => by
    show runTesseractLoop recog (lang :: post) errs = _
    unfold runTesseractLoop
    rw [hnf]
  | l :: pre, lang, post, errs, herr, hnf => by
    obtain ⟨m, hm⟩ := herr l (by simp)
    show runTesseractLoop recog (l :: (pre ++ lang :: post)) errs = _
    unfold runTesseractLoop
    rw [hm]
    exact runTesseractLoop_notFound recog pre lang post _
      (fun x hx => herr x (List.mem_cons_of_mem l hx)) hnf

theorem runTesseractLoop_all_fail (recog : String → RecogOutcome) (msgOf : String → String) :
    ∀ (candidates errs : List String),
      (∀ l ∈ candidates, recog l = .tessError (msgOf l)) →
      runTesseractLoop recog candidates errs =
        .error (.ocrError ("Tesseract failed for all language candidates: " ++
          String.intercalate "; " (errs ++ candidates.map
            (fun l => if l ≠ "" then "lang=\x27" ++ l ++ "\x27 -> " ++ msgOf l
              else msgOf l))))
  | [], errs, _ => by
    unfold runTesseractLoop
    rw [List.map_nil, List.append_nil]
  | l :: rest, errs, h => by
    show runTesseractLoop recog (l :: rest) errs = _
    unfold runTesseractLoop
    rw [h l (by simp)]
    show runTesseractLoop recog rest
        (errs ++ [if l ≠ "" then "lang=\x27" ++ l ++ "\x27 -> " ++ msgOf l else msgOf l]) = _
    rw [runTesseractLoop_all_fail recog msgOf rest _
      (fun x hx => h x (List.mem_cons_of_mem l hx))]
    rw [List.map_cons, List.append_assoc]
    rfl

theorem run_tesseract_eq (env : OcrEnv) (i : Nat) (candidates : List String)
    (h : env.pytesseractAvailable = true) :
    _run_tesseract env i candidates = runTesseractLoop (env.recognize i) candidates [] := by
  unfold _run_tesseract
  rw [if_neg (by simp [h])]

theorem run_tesseract_ok_avail {env : OcrEnv} {i : Nat} {candidates : List String}
    {x : String × String}
    (h : _run_tesseract env i candidates = .ok x) :
    env.pytesseractAvailable = true := by
  unfold _run_tesseract at h
  by_cases ha : env.pytesseractAvailable = true
  · exact ha
  · rw [if_pos (by simp [ha])] at h
    cases h

/-- C8: within the recognition attempt loop, the first language the
recogniser answers without an engine-level error wins, returning its trimmed
text and the language code; a missing Tesseract installation aborts the loop
at once with the fatal `OCRError`, irrespective of the remaining candidates;
and if every candidate fails non-fatally, the raised `OCRError` aggregates
the per-language failure reasons of every attempted language. -/
theorem C8_recognition_attempt_loop :
    (∀ (recog : String → RecogOutcome) (pre : List String) (lang : String)
        (post errs : List String) (t : String),
      (∀ l ∈ pre, ∃ m, recog l = .tessError m) → recog lang = .ok t →
      runTesseractLoop recog (pre ++ lang :: post) errs = .ok (pyStripS t, lang)) ∧
    (∀ (recog : String → RecogOutcome) (pre : List String) (lang : String)
        (post errs : List String),
      (∀ l ∈ pre, ∃ m, recog l = .tessError m) → recog lang = .notFound →
      runTesseractLoop recog (pre ++ lang :: post) errs =
        .error (.ocrError "Tesseract binary not found. Ensure Tesseract OCR is installed and available on PATH.")) ∧
    (∀ (recog : String → RecogOutcome) (msgOf : String → String) (candidates : List String),
      (∀ l ∈ candidates, recog l = .tessError (msgOf l)) →
      runTesseractLoop recog candidates [] =
        .error (.ocrError ("Tesseract failed for all language candidates: " ++
          String.intercalate "; " (candidates.map
            (fun l => if l ≠ "" then "lang=\x27" ++ l ++ "\x27 -> " ++ msgOf l
              else msgOf l))))) ∧
    (∀ (env : OcrEnv) (i : Nat) (candidates : List String),
      env.pytesseractAvailable = true →
      _run_tesseract env i candidates = runTesseractLoop (env.recognize i) candidates []) := by
  refine ⟨runTesseractLoop_ok_first, runTesseractLoop_notFound, ?_, run_tesseract_eq⟩
  intro recog msgOf candidates h
  rw [runTesseractLoop_all_fail recog msgOf candidates [] h, List.nil_append]

/-- C8 witness: the loop on concrete recognisers — first success wins with
trimmed text, a missing installation is fatal, and exhaustion aggregates. -/
theorem C8_recognition_attempt_loop_witness :
    runTesseractLoop recogSecond (["vie"] ++ "eng" :: []) [] = .ok (pyStripS "  text  ", "eng") ∧
    runTesseractLoop recogMissing ([] ++ "x" :: ["y"]) [] =
      .error (.ocrError "Tesseract binary not found. Ensure Tesseract OCR is installed and available on PATH.") ∧
    runTesseractLoop recogAllFail ["a", "b"] [] =
      .error (.ocrError ("Tesseract failed for all language candidates: " ++
        String.intercalate "; " (["a", "b"].map
          (fun l => if l ≠ "" then "lang=\x27" ++ l ++ "\x27 -> " ++ ("bad " ++ l)
            else "bad " ++ l)))) ∧
    _run_tesseract imgEnvBlank 0 ["eng"] =
      runTesseractLoop (imgEnvBlank.recognize 0) ["eng"] [] := by
  refine ⟨?_, ?_, ?_, ?_⟩
  · exact C8_recognition_attempt_loop.1 recogSecond ["vie"] "eng" [] [] "  text  "
      (by
        intro l hl
        rw [List.mem_singleton] at hl
        exact ⟨"no pack", by rw [hl]; decide⟩)
      (by decide)
  · exact C8_recognition_attempt_loop.2.1 recogMissing [] "x" ["y"] []
      (by intro l hl; simp at hl) (by decide)
  · exact C8_recognition_attempt_loop.2.2.1 recogAllFail (fun l => "bad " ++ l) ["a", "b"]
      (by
        intro l hl
        rcases List.mem_cons.mp hl with h | h
        · rw [h]; decide
        · rw [List.mem_singleton] at h; rw [h]; decide)
  · exact C8_recognition_attempt_loop.2.2.2 imgEnvBlank 0 ["eng"] rfl

/-! ## Claims C6 and C7 -/

theorem extract_text_image (env : OcrEnv) (path : String) (langs : Option String)
    (hex : env.fileExists = true)
    (hdep : _ensure_dependencies env (pathSuffixLower path) = none)
    (himg : pathSuffixLower path ∈ SUPPORTED_IMAGE_EXTENSIONS) :
    extract_text env path langs = _extract_from_image env langs := by
  unfold extract_text
  rw [if_neg (by simp [hex]), hdep, if_pos himg]

theorem extract_text_pdf (env : OcrEnv) (path : String) (langs : Option String)
    (hex : env.fileExists = true)
    (hdep : _ensure_dependencies env (pathSuffixLower path) = none)
    (himg : pathSuffixLower path ∉ SUPPORTED_IMAGE_EXTENSIONS)
    (hpdf : pathSuffixLower path ∈ SUPPORTED_PDF_EXTENSIONS) :
    extract_text env path langs = _extract_from_pdf env langs := by
  unfold extract_text
  rw [if_neg (by simp [hex]), hdep, if_neg himg, if_pos hpdf]

theorem image_used_ocr {env : OcrEnv} {langs : Option String} {r : OCRResult}
    (h : (_extract_from_image env langs).1 = .ok r) :
    r.metadata.used_ocr = (_extract_from_image env langs).2.recognized := by
  unfold _extract_from_image at h ⊢
  cases hrt : _run_tesseract env 0 (_resolve_language_attempts langs) with
  | error e =>
    rw [hrt] at h
    simp at h
  | ok x =>
    obtain ⟨t, lang⟩ := x
    have havail := run_tesseract_ok_avail hrt
    rw [hrt] at h
    replace h : Except.ok (imageOkResult t lang) = .ok r := h
    injection h with h2
    rw [← h2]
    show true = env.pytesseractAvailable
    exact havail.symm

theorem pdfDirectResult_used_ocr {env : OcrEnv} {r0 : OCRResult}
    (h : pdfDirectResult env = some r0) : r0.metadata.used_ocr = false := by
  unfold pdfDirectResult at h
  by_cases h1 : (env.pypdfAvailable = true ∧ ¬ env.pdfReaderFails = true)
  · rw [if_pos h1] at h
    by_cases h2 : pdfDirectText env ≠ ""
    · rw [if_pos h2] at h
      injection h with h3
      rw [← h3]
    · rw [if_neg h2] at h
      cases h
  · rw [if_neg h1] at h
    cases h

theorem pdfOcrPhase_used_ocr {env : OcrEnv} {langs : Option String} {r : OCRResult}
    (h : (pdfOcrPhase env langs).1 = .ok r) :
    r.metadata.used_ocr = (pdfOcrPhase env langs).2.recognized := by
  unfold pdfOcrPhase at h ⊢
  by_cases h1 : env.pdf2imageAvailable = true
  · rw [if_neg (by simp [h1])] at h ⊢
    by_cases h2 : env.rasterPageCount = 0
    · rw [if_pos h2] at h
      simp at h
    · rw [if_neg h2] at h ⊢
      cases hloop : pdfOcrLoop env (_resolve_language_attempts langs)
        (List.range env.rasterPageCount) with
      | error e =>
        rw [hloop] at h
        simp at h
      | ok pr =>
        obtain ⟨texts, langsUsed⟩ := pr
        have havail : env.pytesseractAvailable = true := by
          cases hr : List.range env.rasterPageCount with
          | nil =>
            rw [List.range_eq_nil] at hr
            exact absurd hr h2
          | cons i rest =>
            rw [hr] at hloop
            unfold pdfOcrLoop at hloop
            cases hrt : _run_tesseract env i (_resolve_language_attempts langs) with
            | error e =>
              rw [hrt] at hloop
              simp at hloop
            | ok x => exact run_tesseract_ok_avail hrt
        rw [hloop] at h
        replace h : Except.ok (pdfOcrOkResult env texts langsUsed) = .ok r := h
        injection h with h2
        rw [← h2]
        show true = env.pytesseractAvailable
        exact havail.symm
  · rw [if_pos (by simp [h1])] at h
    simp at h

theorem pdf_used_ocr {env : OcrEnv} {langs : Option String} {r : OCRResult}
    (h : (_extract_from_pdf env langs).1 = .ok r) :
    r.metadata.used_ocr = (_extract_from_pdf env langs).2.recognized := by
  unfold _extract_from_pdf at h ⊢
  cases hdir : pdfDirectResult env with
  | some r0 =>
    rw [hdir] at h
    replace h : Except.ok r0 = .ok r := h
    injection h with h2
    rw [← h2]
    show r0.metadata.used_ocr = false
    exact pdfDirectResult_used_ocr hdir
  | none =>
    rw [hdir] at h
    exact pdfOcrPhase_used_ocr h

/-- C6 counterexample: on an image whose recogniser answers only whitespace,
`extract_text` RETURNS SUCCESSFULLY with empty text, refuting the claim that
a successful result never has empty text. -/
theorem C6_counterexample :
    (extract_text imgEnvBlank "scan.png" (some "eng")).1 =
      .ok { text := "",
            metadata := { engine := "tesseract", source := "image", page_count := none,
                          languagesOne := some "eng", languagesMany := none,
                          used_ocr := true } } := by
  decide

/-- C6 (amended): on every successful extraction the `used_ocr` metadata
flag correctly reflects whether the recognition engine actually ran (true on
the image and pdf-ocr paths, false on the direct pdf-text path), and any
failure is an `OCRError` or `FileNotFoundError`; but the text of a
successful result MAY be empty (when recognition yields only whitespace), so
the non-empty-text guarantee does not hold. -/
theorem C6_used_ocr_flag :
    ∀ (env : OcrEnv) (path : String) (langs : Option String) (r : OCRResult),
      (extract_text env path langs).1 = .ok r →
      r.metadata.used_ocr = (extract_text env path langs).2.recognized := by
  intro env path langs r h
  by_cases hex : env.fileExists = true
  · cases hdep : _ensure_dependencies env (pathSuffixLower path) with
    | some e =>
      have hrw : extract_text env path langs = (.error e, noOcrTrace) := by
        unfold extract_text
        rw [if_neg (by simp [hex]), hdep]
      rw [hrw] at h
      simp at h
    | none =>
      by_cases himg : pathSuffixLower path ∈ SUPPORTED_IMAGE_EXTENSIONS
      · rw [extract_text_image env path langs hex hdep himg] at h ⊢
        exact image_used_ocr h
      · by_cases hpdf : pathSuffixLower path ∈ SUPPORTED_PDF_EXTENSIONS
        · rw [extract_text_pdf env path langs hex hdep himg hpdf] at h ⊢
          exact pdf_used_ocr h
        · have hrw : extract_text env path langs =
              (.error (.ocrError ("Unsupported file type for OCR: " ++ pathSuffixLower path)),
               noOcrTrace) := by
            unfold extract_text
            rw [if_neg (by simp [hex]), hdep, if_neg himg, if_neg hpdf]
          rw [hrw] at h
          simp at h
  · have hrw : extract_text env path langs =
        (.error (.fileNotFound ("File not found: " ++ path)), noOcrTrace) := by
      unfold extract_text
      rw [if_pos (by simp [hex])]
    rw [hrw] at h
    simp at h

/-- C6 witness: the flag equation instantiated at the blank-image fixture. -/
theorem C6_used_ocr_flag_witness :
    ({ text := "",
       metadata := { engine := "tesseract", source := "image", page_count := none,
                     languagesOne := some "eng", languagesMany := none,
                     used_ocr := true } } : OCRResult).metadata.used_ocr =
      (extract_text imgEnvBlank "scan.png" (some "eng")).2.recognized :=
  C6_used_ocr_flag imgEnvBlank "scan.png" (some "eng")
    { text := "",
      metadata := { engine := "tesseract", source := "image", page_count := none,
                    languagesOne := some "eng", languagesMany := none,
                    used_ocr := true } } (by decide)

theorem pyJoin_mem (sep : String) :
    ∀ (L : List String) (u : String), u ∈ L → ∀ c ∈ u.data, c ∈ (pyJoin sep L).data
  | [], u, hu, _, _ => by simp at hu
  | [x], u, hu, c, hc => by
    rw [List.mem_singleton] at hu
    subst hu
    exact hc
  | x :: y :: rest, u, hu, c, hc => by
    show c ∈ (x ++ sep ++ pyJoin sep (y :: rest)).data
    rw [String.data_append, String.data_append]
    rcases List.mem_cons.mp hu with h | h
    · subst h
      exact List.mem_append.mpr (.inl (List.mem_append.mpr (.inl hc)))
    · exact List.mem_append.mpr (.inr (pyJoin_mem sep (y :: rest) u h c hc))

theorem pyStripS_has_nonspace {t : String} (h : pyStripS t ≠ "") :
    ∃ c ∈ (pyStripS t).data, pyIsSpaceChar c = false := by
  by_contra hcon
  push_neg at hcon
  have hall : ∀ c ∈ (pyStripS t).data, pyIsSpaceChar c = true := by
    intro c hc
    have := hcon c hc
    simpa using this
  have h1 : pyStrip (pyStripS t).data = [] := pyStrip_eq_nil_iff.mpr hall
  have h2 : pyStrip (pyStripS t).data = (pyStripS t).data := by
    show pyStrip (pyStrip t.data) = pyStrip t.data
    exact pyStrip_idem t.data
  rw [h2] at h1
  exact h (String.ext h1)

theorem pdfDirectText_ne_of_usable (env : OcrEnv)
    (h : ∃ p ∈ env.pdfPages, ∃ t, p = some t ∧ pyStripS t ≠ "") :
    pdfDirectText env ≠ "" := by
  obtain ⟨p, hp, t, hpt, hts⟩ := h
  have hu : pyStripS t ∈
      ((env.pdfPages.map (fun p => p.getD "")).map pyStripS).filter (fun c => c ≠ "") := by
    apply List.mem_filter.mpr
    constructor
    · apply List.mem_map.mpr
      refine ⟨t, ?_, rfl⟩
      apply List.mem_map.mpr
      exact ⟨p, hp, by rw [hpt]; rfl⟩
    · simp [hts]
  obtain ⟨c, hc, hcns⟩ := pyStripS_has_nonspace hts
  have hcj : c ∈ (pyJoin "\n\n"
      (((env.pdfPages.map (fun p => p.getD "")).map pyStripS).filter (fun c => c ≠ ""))).data :=
    pyJoin_mem "\n\n" _ (pyStripS t) hu c hc
  intro hempty
  have h1 : pyStrip (pyJoin "\n\n"
      (((env.pdfPages.map (fun p => p.getD "")).map pyStripS).filter (fun c => c ≠ ""))).data =
      [] := congrArg String.data hempty
  have h2 := pyStrip_eq_nil_iff.mp h1 c hcj
  rw [hcns] at h2
  cases h2

/-- C7: whenever at least one page of the PDF yields non-whitespace direct
text (failing pages contributing nothing), extraction returns the direct
result — source `"pdf_text"`, `used_ocr = false` — without rasterising or
invoking the recogniser; and the rasterising fallback can only have run when
every successfully extracted page stripped to the empty string. -/
theorem C7_pdf_direct_text_first :
    (∀ (env : OcrEnv) (path : String) (langs : Option String),
      env.fileExists = true → env.pillowAvailable = true →
      env.pytesseractAvailable = true → env.pypdfAvailable = true →
      env.pdfReaderFails = false →
      pathSuffixLower path = ".pdf" →
      (∃ p ∈ env.pdfPages, ∃ t, p = some t ∧ pyStripS t ≠ "") →
      (extract_text env path langs).1 =
        .ok { text := pdfDirectText env,
              metadata := { engine := "pypdf", source := "pdf_text",
                            page_count := some env.pdfPages.length,
                            languagesOne := none, languagesMany := none,
                            used_ocr := false } } ∧
      (extract_text env path langs).2 = noOcrTrace) ∧
    (∀ (env : OcrEnv) (langs : Option String),
      env.pypdfAvailable = true → env.pdfReaderFails = false →
      (_extract_from_pdf env langs).2.rasterized = true →
      ∀ p ∈ env.pdfPages, ∀ t, p = some t → pyStripS t = "") := by
  constructor
  · intro env path langs hex hpillow htess hpypdf hreader hsuffix husable
    have hdep : _ensure_dependencies env (pathSuffixLower path) = none := by
      unfold _ensure_dependencies
      rw [if_neg (by simp [hpillow]), if_neg (by simp [htess]), if_neg (by simp [hpypdf])]
    have hdir : pdfDirectResult env =
        some { text := pdfDirectText env,
               metadata := { engine := "pypdf", source := "pdf_text",
                             page_count := some env.pdfPages.length,
                             languagesOne := none, languagesMany := none,
                             used_ocr := false } } := by
      unfold pdfDirectResult
      rw [if_pos ⟨hpypdf, by simp [hreader]⟩, if_pos (pdfDirectText_ne_of_usable env husable)]
    have hrw : extract_text env path langs = _extract_from_pdf env langs :=
      extract_text_pdf env path langs hex hdep
        (by rw [hsuffix]; decide) (by rw [hsuffix]; decide)
    rw [hrw]
    unfold _extract_from_pdf
    rw [hdir]
    exact ⟨rfl, rfl⟩
  · intro env langs hpypdf hreader hrast p hp t hpt
    by_contra hts
    have hne := pdfDirectText_ne_of_usable env ⟨p, hp, t, hpt, hts⟩
    have hdir : pdfDirectResult env ≠ none := by
      unfold pdfDirectResult
      rw [if_pos ⟨hpypdf, by simp [hreader]⟩, if_pos hne]
      simp
    unfold _extract_from_pdf at hrast
    cases hd : pdfDirectResult env with
    | none => exact hdir hd
    | some r0 =>
      rw [hd] at hrast
      replace hrast : noOcrTrace.rasterized = true := hrast
      exact absurd hrast (by decide)

/-- C7 witness: the fixture PDF with one selectable-text page extracts
directly, with no rasterisation and no recogniser call. -/
theorem C7_pdf_direct_text_first_witness :
    (extract_text pdfEnvText "doc.pdf" none).1 =
      .ok { text := pdfDirectText pdfEnvText,
            metadata := { engine := "pypdf", source := "pdf_text",
                          page_count := some pdfEnvText.pdfPages.length,
                          languagesOne := none, languagesMany := none,
                          used_ocr := false } } ∧
    (extract_text pdfEnvText "doc.pdf" none).2 = noOcrTrace :=
  C7_pdf_direct_text_first.1 pdfEnvText "doc.pdf" none rfl rfl rfl rfl rfl (by decide)
    ⟨some "hello world", by decide, "hello world", rfl, by decide⟩

end AgenticRag
